import Mathlib

/-!
Formal model of the replication-overview tools.

Shallow embedding, in Lean, of the core functions of the repository:
`reptool/replication_overview.py`, `rds_replication_overview.py`,
`reptool/rds_replication_overview.py`, `reptool/temporal_slot_checker.py`
and `reptool/temporal_slot_decoder.py`.  Pure computations are translated
directly; the database is abstracted as environments of query results;
Python exceptions are modelled with `Option`/`Except`.
-/

/-- Overall health severity; the Python code uses the strings
`HEALTHY`, `WARNING`, `CRITICAL`. -/
inductive Sev
  | HEALTHY
  | WARNING
  | CRITICAL
deriving DecidableEq, Repr

/-- Numeric rank of a severity, giving the HEALTHY < WARNING < CRITICAL order. -/
def Sev.rank : Sev → Nat
  | .HEALTHY => 0
  | .WARNING => 1
  | .CRITICAL => 2

/-- `sevLE a b` : severity `a` is no higher than severity `b`. -/
def sevLE (a b : Sev) : Prop := a.rank ≤ b.rank

instance (a b : Sev) : Decidable (sevLE a b) :=
  inferInstanceAs (Decidable (_ ≤ _))

theorem sevLE_refl (a : Sev) : sevLE a a := Nat.le_refl _

theorem sevLE_trans {a b c : Sev} (h1 : sevLE a b) (h2 : sevLE b c) : sevLE a c :=
  Nat.le_trans h1 h2

theorem sevLE_crit (a : Sev) : sevLE a Sev.CRITICAL := by
  cases a <;> decide

theorem eq_crit_of_crit_le {a : Sev} (h : sevLE Sev.CRITICAL a) : a = Sev.CRITICAL := by
  cases a <;> first | rfl | exact absurd h (by decide)

/-- Python truthiness of an optional string: `None` and `""` are falsy,
every other string is truthy. -/
def pyTruthyStr : Option String → Bool
  | none => false
  | some s => !s.isEmpty

/-- Association-list lookup, modelling `dict[k]` / `dict.get(k)`. -/
def alistGet? {κ ν : Type} [DecidableEq κ] : List (κ × ν) → κ → Option ν
  | [], _ => none
  | p :: tl, k => if p.1 = k then some p.2 else alistGet? tl k

/-- Association-list update, modelling `dict[k] = v` (Python dicts keep
one entry per key; insertion order of fresh keys is preserved). -/
def alistSet {κ ν : Type} [DecidableEq κ] : List (κ × ν) → κ → ν → List (κ × ν)
  | [], k, v => [(k, v)]
  | p :: tl, k, v => if p.1 = k then (k, v) :: tl else p :: alistSet tl k v

/-- Modelling `dict.setdefault(k, []).append(v)`. -/
def alistPush {κ ν : Type} [DecidableEq κ] : List (κ × List ν) → κ → ν → List (κ × List ν)
  | [], k, v => [(k, [v])]
  | p :: tl, k, v => if p.1 = k then (p.1, p.2 ++ [v]) :: tl else p :: alistPush tl k v

/-- Python `dict.get(k, d)` for string dicts. -/
def dget (m : List (String × String)) (k d : String) : String :=
  (alistGet? m k).getD d

/-- Python `set.add` on a duplicate-free list (the final rendering sorts,
so the insertion order kept here is irrelevant). -/
def addRec (l : List String) (x : String) : List String :=
  if x ∈ l then l else l ++ [x]

/-- Lexicographic code-point comparison of character lists — the string
comparison Python `sorted` uses. -/
def charListLe : List Char → List Char → Bool
  | [], _ => true
  | _ :: _, [] => false
  | a :: as, b :: bs =>
    if a.toNat < b.toNat then true
    else if b.toNat < a.toNat then false
    else charListLe as bs

/-- Python string `<=` (lexicographic by code point). -/
def strLeP (a b : String) : Prop :=
  charListLe a.toList b.toList = true

instance : DecidableRel strLeP :=
  fun _ _ => inferInstanceAs (Decidable (_ = true))

theorem charListLe_cons_iff {a b : Char} {as bs : List Char} :
    charListLe (a :: as) (b :: bs) = true ↔
      (a.toNat < b.toNat ∨ (a.toNat = b.toNat ∧ charListLe as bs = true)) := by
  rw [charListLe]
  by_cases h1 : a.toNat < b.toNat
  · simp [h1]
  · by_cases h2 : b.toNat < a.toNat
    · simp only [if_neg h1, if_pos h2]
      constructor
      · intro h; exact absurd h (by simp)
      · intro h
        rcases h with h | ⟨h, _⟩ <;> omega
    · simp only [if_neg h1, if_neg h2]
      constructor
      · intro h; exact Or.inr ⟨by omega, h⟩
      · intro h
        rcases h with h | ⟨_, h⟩
        · omega
        · exact h

theorem charListLe_total : ∀ as bs : List Char,
    charListLe as bs = true ∨ charListLe bs as = true := by
  intro as
  induction as with
  | nil => intro bs; exact Or.inl rfl
  | cons a as ih =>
    intro bs
    cases bs with
    | nil => exact Or.inr rfl
    | cons b bs =>
      rcases Nat.lt_trichotomy a.toNat b.toNat with h | h | h
      · exact Or.inl (charListLe_cons_iff.mpr (Or.inl h))
      · rcases ih bs with h2 | h2
        · exact Or.inl (charListLe_cons_iff.mpr (Or.inr ⟨h, h2⟩))
        · exact Or.inr (charListLe_cons_iff.mpr (Or.inr ⟨h.symm, h2⟩))
      · exact Or.inr (charListLe_cons_iff.mpr (Or.inl h))

theorem charListLe_trans : ∀ as bs cs : List Char,
    charListLe as bs = true → charListLe bs cs = true →
    charListLe as cs = true := by
  intro as
  induction as with
  | nil => intro bs cs _ _; rfl
  | cons a as ih =>
    intro bs cs h1 h2
    cases bs with
    | nil => exact absurd h1 (by rw [charListLe]; simp)
    | cons b bs =>
      cases cs with
      | nil => exact absurd h2 (by rw [charListLe]; simp)
      | cons c cs =>
        rw [charListLe_cons_iff] at h1 h2 ⊢
        rcases h1 with h1 | ⟨h1e, h1r⟩
        · rcases h2 with h2 | ⟨h2e, _⟩
          · exact Or.inl (by omega)
          · exact Or.inl (by omega)
        · rcases h2 with h2 | ⟨h2e, h2r⟩
          · exact Or.inl (by omega)
          · exact Or.inr ⟨by omega, ih bs cs h1r h2r⟩

instance : IsTotal String strLeP :=
  ⟨fun a b => charListLe_total a.toList b.toList⟩

instance : IsTrans String strLeP :=
  ⟨fun a b c => charListLe_trans a.toList b.toList c.toList⟩

/-- Python `sorted` on strings. -/
def sortStrings (l : List String) : List String :=
  l.insertionSort strLeP

/-- Python `sep.join(l)`. -/
def joinSep (sep : String) : List String → String
  | [] => ""
  | [x] => x
  | x :: y :: tl => x ++ sep ++ joinSep sep (y :: tl)

/-- Two-digit zero-padded rendering of a number below 100. -/
def pad2 (n : Nat) : String :=
  if n < 10 then "0" ++ toString n else toString n

/-- Model of the Python format `f"{x:.2f}"`, applied to the exact rational
value of the formatted float: round `100·q` to the nearest integer, ties
to even (the rounding Python float formatting uses), then print with two
decimals.  Written on the numerator and denominator directly: `f` is the
floor of `100·q` and `r2 = 2·(100·q − f)·den` is compared with `den` to
place the fractional part against one half. -/
def fmt2 (q : ℚ) : String :=
  let n100 : ℤ := 100 * q.num
  let d : ℤ := Int.ofNat q.den
  let f := Int.fdiv n100 d
  let r2 := 2 * (n100 - f * d)
  let n := if r2 < d then f
    else if r2 > d then f + 1
    else if f % 2 = 0 then f else f + 1
  if n < 0 then "-" ++ toString ((-n).toNat / 100) ++ "." ++ pad2 ((-n).toNat % 100)
  else toString (n.toNat / 100) ++ "." ++ pad2 (n.toNat % 100)

/-- Split a character list at every character satisfying `p`, keeping empty
pieces — the splitting underlying Python `str.split`. -/
def splitCharP (p : Char → Bool) : List Char → List (List Char)
  | [] => [[]]
  | c :: cs =>
    if p c then [] :: splitCharP p cs
    else (c :: (splitCharP p cs).headD []) :: (splitCharP p cs).tail

theorem splitCharP_length (p : Char → Bool) (cs : List Char) :
    (splitCharP p cs).length = cs.countP p + 1 := by
  induction cs with
  | nil => simp [splitCharP]
  | cons c tl ih =>
    by_cases hc : p c
    · simp [splitCharP, hc, ih, List.countP_cons]
    · simp [splitCharP, hc, List.length_tail, ih, List.countP_cons]

/-- Python `str.split()` with no argument: split on whitespace and drop
the empty pieces. -/
def pySplitWs (s : String) : List String :=
  ((splitCharP (fun c => c.isWhitespace) s.toList).filter (fun w => w ≠ [])).map
    (fun w => String.mk w)

/-- Python `str.startswith`. -/
def pyStartsWith (p s : String) : Bool :=
  p.toList.isPrefixOf s.toList

/-- `part.split('=')[1]` — `none` models the Python `IndexError` raised
when the token has no `=`. -/
def eqSplitIndex1 (part : String) : Option String :=
  ((splitCharP (fun c => c = '=') part.toList).get? 1).map (fun w => String.mk w)

theorem eqSplitIndex1_isSome_of_mem {part : String} (h : '=' ∈ part.toList) :
    (eqSplitIndex1 part).isSome := by
  have hcount : 0 < part.toList.countP (fun c => c = '=') := by
    rw [List.countP_pos_iff]
    exact ⟨'=', h, by simp⟩
  have hlen : 1 < (splitCharP (fun c => c = '=') part.toList).length := by
    rw [splitCharP_length]; omega
  rw [eqSplitIndex1, Option.isSome_map']
  rw [Option.isSome_iff_ne_none]
  intro hnone
  rw [List.get?_eq_none] at hnone
  omega

theorem mem_of_pyStartsWith {p s : String} {c : Char}
    (h : pyStartsWith p s = true) (hc : c ∈ p.toList) : c ∈ s.toList := by
  rw [pyStartsWith, List.isPrefixOf_iff_prefix] at h
  exact h.subset hc

namespace ReplicationOverview

/-- One iteration of the token loop of `parse_conninfo`
(`reptool/replication_overview.py`, lines 275-285): tokens are tested with
`startswith` for the three recognised keys, the value is `split('=')[1]`,
and unrecognised tokens are skipped. -/
def conninfoStep (acc : Option String × Option String × Option String)
    (part : String) : Option (Option String × Option String × Option String) :=
  if pyStartsWith "host=" part then
    (eqSplitIndex1 part).map (fun v => (some v, acc.2.1, acc.2.2))
  else if pyStartsWith "user=" part then
    (eqSplitIndex1 part).map (fun v => (acc.1, some v, acc.2.2))
  else if pyStartsWith "password=" part then
    (eqSplitIndex1 part).map (fun v => (acc.1, acc.2.1, some v))
  else
    some acc

/-- `parse_conninfo` from `reptool/replication_overview.py` (lines 275-285),
returning `(host, user, password)`.  The outer `Option` is `none` exactly
when the Python code would raise; `parse_conninfo_total` below shows this
cannot happen. -/
def parse_conninfo (conninfo : String) :
    Option (Option String × Option String × Option String) :=
  (pySplitWs conninfo).foldlM conninfoStep (none, none, none)

theorem conninfoStep_isSome (acc : Option String × Option String × Option String)
    (part : String) : (conninfoStep acc part).isSome := by
  rw [conninfoStep]
  by_cases h1 : pyStartsWith "host=" part
  · have := eqSplitIndex1_isSome_of_mem
      (mem_of_pyStartsWith h1 (by decide))
    simp [h1, Option.isSome_map, this]
  · by_cases h2 : pyStartsWith "user=" part
    · have := eqSplitIndex1_isSome_of_mem
        (mem_of_pyStartsWith h2 (by decide))
      simp [h1, h2, Option.isSome_map, this]
    · by_cases h3 : pyStartsWith "password=" part
      · have := eqSplitIndex1_isSome_of_mem
          (mem_of_pyStartsWith h3 (by decide))
        simp [h1, h2, h3, Option.isSome_map, this]
      · simp [h1, h2, h3]

theorem foldlM_conninfo_isSome (l : List String)
    (acc : Option String × Option String × Option String) :
    (l.foldlM conninfoStep acc).isSome := by
  induction l generalizing acc with
  | nil => simp [List.foldlM]
  | cons x tl ih =>
    rw [List.foldlM]
    obtain ⟨a, ha⟩ := Option.isSome_iff_exists.mp (conninfoStep_isSome acc x)
    rw [ha]
    exact ih a

/-- `parse_conninfo` never raises. -/
theorem parse_conninfo_total (s : String) : (parse_conninfo s).isSome :=
  foldlM_conninfo_isSome _ _

theorem conninfoStep_components {acc : Option String × Option String × Option String}
    {part : String} {a} (h : conninfoStep acc part = some a) :
    (pyStartsWith "host=" part = false → a.1 = acc.1)
    ∧ (pyStartsWith "user=" part = false → a.2.1 = acc.2.1)
    ∧ (pyStartsWith "password=" part = false → a.2.2 = acc.2.2) := by
  rw [conninfoStep] at h
  by_cases h1 : pyStartsWith "host=" part
  · rw [if_pos h1] at h
    cases hv : eqSplitIndex1 part with
    | none => rw [hv] at h; exact Option.noConfusion h
    | some v =>
      rw [hv, Option.map_some', Option.some_inj] at h
      refine ⟨fun hc => absurd h1 (by rw [hc]; exact Bool.false_ne_true), ?_, ?_⟩ <;>
        intro _ <;> rw [← h]
  · rw [if_neg h1] at h
    by_cases h2 : pyStartsWith "user=" part
    · rw [if_pos h2] at h
      cases hv : eqSplitIndex1 part with
      | none => rw [hv] at h; exact Option.noConfusion h
      | some v =>
        rw [hv, Option.map_some', Option.some_inj] at h
        refine ⟨?_, fun hc => absurd h2 (by rw [hc]; exact Bool.false_ne_true), ?_⟩ <;>
          intro _ <;> rw [← h]
    · rw [if_neg h2] at h
      by_cases h3 : pyStartsWith "password=" part
      · rw [if_pos h3] at h
        cases hv : eqSplitIndex1 part with
        | none => rw [hv] at h; exact Option.noConfusion h
        | some v =>
          rw [hv, Option.map_some', Option.some_inj] at h
          refine ⟨?_, ?_, fun hc => absurd h3 (by rw [hc]; exact Bool.false_ne_true)⟩ <;>
            intro _ <;> rw [← h]
      · rw [if_neg h3, Option.some_inj] at h
        refine ⟨?_, ?_, ?_⟩ <;> intro _ <;> rw [← h]

theorem foldlM_conninfo_fst (l : List String)
    (acc : Option String × Option String × Option String) {r}
    (hr : l.foldlM conninfoStep acc = some r)
    (hn : ∀ t ∈ l, pyStartsWith "host=" t = false) : r.1 = acc.1 := by
  induction l generalizing acc with
  | nil => simp only [List.foldlM_nil, Option.pure_def, Option.some_inj] at hr; rw [hr]
  | cons x tl ih =>
    rw [List.foldlM_cons] at hr
    cases hx : conninfoStep acc x with
    | none => rw [hx] at hr; exact absurd hr (by simp)
    | some a =>
      rw [hx] at hr
      have h1 := ih a hr (fun t ht => hn t (List.mem_cons_of_mem _ ht))
      rw [h1, (conninfoStep_components hx).1 (hn x (List.mem_cons_self _ _))]

theorem foldlM_conninfo_user (l : List String)
    (acc : Option String × Option String × Option String) {r}
    (hr : l.foldlM conninfoStep acc = some r)
    (hn : ∀ t ∈ l, pyStartsWith "user=" t = false) : r.2.1 = acc.2.1 := by
  induction l generalizing acc with
  | nil => simp only [List.foldlM_nil, Option.pure_def, Option.some_inj] at hr; rw [hr]
  | cons x tl ih =>
    rw [List.foldlM_cons] at hr
    cases hx : conninfoStep acc x with
    | none => rw [hx] at hr; exact absurd hr (by simp)
    | some a =>
      rw [hx] at hr
      have h1 := ih a hr (fun t ht => hn t (List.mem_cons_of_mem _ ht))
      rw [h1, (conninfoStep_components hx).2.1 (hn x (List.mem_cons_self _ _))]

theorem foldlM_conninfo_password (l : List String)
    (acc : Option String × Option String × Option String) {r}
    (hr : l.foldlM conninfoStep acc = some r)
    (hn : ∀ t ∈ l, pyStartsWith "password=" t = false) : r.2.2 = acc.2.2 := by
  induction l generalizing acc with
  | nil => simp only [List.foldlM_nil, Option.pure_def, Option.some_inj] at hr; rw [hr]
  | cons x tl ih =>
    rw [List.foldlM_cons] at hr
    cases hx : conninfoStep acc x with
    | none => rw [hx] at hr; exact absurd hr (by simp)
    | some a =>
      rw [hx] at hr
      have h1 := ih a hr (fun t ht => hn t (List.mem_cons_of_mem _ ht))
      rw [h1, (conninfoStep_components hx).2.2 (hn x (List.mem_cons_self _ _))]

end ReplicationOverview

theorem alistGet?_set_ne {κ ν : Type} [DecidableEq κ] (m : List (κ × ν))
    {k k' : κ} (v : ν) (h : k' ≠ k) :
    alistGet? (alistSet m k v) k' = alistGet? m k' := by
  have hkk : ¬(k = k') := fun hh => h hh.symm
  induction m with
  | nil => simp only [alistSet, alistGet?, if_neg hkk]
  | cons p tl ih =>
    by_cases hp : p.1 = k
    · have hp2 : ¬(p.1 = k') := by rw [hp]; exact hkk
      simp only [alistSet, if_pos hp, alistGet?, if_neg hkk, if_neg hp2]
    · simp only [alistSet, if_neg hp, alistGet?]
      by_cases hp2 : p.1 = k'
      · simp only [if_pos hp2]
      · simp only [if_neg hp2, ih]

theorem alistGet?_append {κ ν : Type} [DecidableEq κ] (m1 m2 : List (κ × ν)) (k : κ) :
    alistGet? (m1 ++ m2) k =
      match alistGet? m1 k with
      | some v => some v
      | none => alistGet? m2 k := by
  induction m1 with
  | nil => simp [alistGet?]
  | cons p tl ih =>
    by_cases hp : p.1 = k
    · simp [alistGet?, hp]
    · simp [alistGet?, hp, ih]

namespace TemporalSlotChecker

/-- Key of a `key=value` token: `part.split("=", 1)[0]`. -/
def keyOf (part : String) : String :=
  String.mk (part.toList.takeWhile (fun c => c ≠ '='))

/-- Value of a `key=value` token: `part.split("=", 1)[1]`. -/
def valOf (part : String) : String :=
  String.mk ((part.toList.dropWhile (fun c => c ≠ '=')).drop 1)

/-- One iteration of the token loop of `parse_conninfo` in
`reptool/temporal_slot_checker.py`: tokens without `=` are skipped. -/
def tokenStep (ps : List (String × Option String)) (part : String) :
    List (String × Option String) :=
  if '=' ∈ part.toList then alistSet ps (keyOf part) (some (valOf part)) else ps

/-- `parse_conninfo` from `reptool/temporal_slot_checker.py` (lines 138-147):
collect every `key=value` token into a dict, then insert `password = None`
when that key is absent.  The dict value type is `Option String`; the
injected `password` entry carries the Python `None`. -/
def parse_conninfo (conninfo : String) : List (String × Option String) :=
  let params := (pySplitWs conninfo).foldl tokenStep []
  if (alistGet? params "password").isSome then params
  else params ++ [("password", none)]

/-- No token of the descriptor string provides the key `k`. -/
def NoKey (s k : String) : Prop :=
  ∀ t ∈ pySplitWs s, '=' ∈ t.toList → keyOf t ≠ k

instance (s k : String) : Decidable (NoKey s k) :=
  inferInstanceAs (Decidable (∀ t ∈ pySplitWs s, _ → _))

theorem foldl_tokenStep_preserve (l : List String)
    (ps : List (String × Option String)) (k : String)
    (hk : ∀ t ∈ l, '=' ∈ t.toList → keyOf t ≠ k) :
    alistGet? (l.foldl tokenStep ps) k = alistGet? ps k := by
  induction l generalizing ps with
  | nil => rfl
  | cons x tl ih =>
    rw [List.foldl_cons]
    rw [ih _ (fun t ht => hk t (List.mem_cons_of_mem _ ht))]
    rw [tokenStep]
    by_cases hx : '=' ∈ x.toList
    · rw [if_pos hx]
      exact alistGet?_set_ne ps _ fun hh => hk x (List.mem_cons_self _ _) hx hh.symm
    · rw [if_neg hx]

end TemporalSlotChecker

/-- Some whitespace-separated token of `s` starts with `key`. -/
def hasToken (key s : String) : Bool :=
  (pySplitWs s).any (fun t => pyStartsWith key t)

theorem hasToken_false_forall {key s : String} (h : hasToken key s = false) :
    ∀ t ∈ pySplitWs s, pyStartsWith key t = false := by
  rw [hasToken, List.any_eq_false] at h
  intro t ht
  exact Bool.not_eq_true _ |>.mp (h t ht)

/-- C7: a descriptor string missing any key parses without raising and the
absent fields stay unset.  The `replication_overview` parser returns `none`
for every key whose token is absent; the `temporal_slot_checker` parser
leaves an absent key out of its dict entirely — except `password`, which it
sets to the Python `None` (still "unset", never a zero-valued default). -/
theorem C7_parse_conninfo_absent_unset :
    (∀ s : String, (ReplicationOverview.parse_conninfo s).isSome = true)
    ∧ (∀ s : String, hasToken "host=" s = false →
        ((ReplicationOverview.parse_conninfo s).getD (none, none, none)).1 = none)
    ∧ (∀ s : String, hasToken "user=" s = false →
        ((ReplicationOverview.parse_conninfo s).getD (none, none, none)).2.1 = none)
    ∧ (∀ s : String, hasToken "password=" s = false →
        ((ReplicationOverview.parse_conninfo s).getD (none, none, none)).2.2 = none)
    ∧ (∀ s k, TemporalSlotChecker.NoKey s k → k ≠ "password" →
        alistGet? (TemporalSlotChecker.parse_conninfo s) k = none)
    ∧ (∀ s, TemporalSlotChecker.NoKey s "password" →
        alistGet? (TemporalSlotChecker.parse_conninfo s) "password" = some none) := by
  have hfold : ∀ s : String,
      alistGet? ((pySplitWs s).foldl TemporalSlotChecker.tokenStep []) "password" = none →
      TemporalSlotChecker.parse_conninfo s =
        (pySplitWs s).foldl TemporalSlotChecker.tokenStep [] ++ [("password", none)] := by
    intro s hs
    rw [TemporalSlotChecker.parse_conninfo]
    simp only [hs, Option.isSome_none, Bool.false_eq_true, if_false]
  refine ⟨ReplicationOverview.parse_conninfo_total, ?_, ?_, ?_, ?_, ?_⟩
  · intro s hs
    obtain ⟨r, hr⟩ :=
      Option.isSome_iff_exists.mp (ReplicationOverview.parse_conninfo_total s)
    rw [hr, Option.getD_some]
    exact ReplicationOverview.foldlM_conninfo_fst _ _ hr (hasToken_false_forall hs)
  · intro s hs
    obtain ⟨r, hr⟩ :=
      Option.isSome_iff_exists.mp (ReplicationOverview.parse_conninfo_total s)
    rw [hr, Option.getD_some]
    exact ReplicationOverview.foldlM_conninfo_user _ _ hr (hasToken_false_forall hs)
  · intro s hs
    obtain ⟨r, hr⟩ :=
      Option.isSome_iff_exists.mp (ReplicationOverview.parse_conninfo_total s)
    rw [hr, Option.getD_some]
    exact ReplicationOverview.foldlM_conninfo_password _ _ hr (hasToken_false_forall hs)
  · intro s k hk hkp
    have hparams :
        alistGet? ((pySplitWs s).foldl TemporalSlotChecker.tokenStep []) k = none :=
      TemporalSlotChecker.foldl_tokenStep_preserve _ _ _ hk
    rw [TemporalSlotChecker.parse_conninfo]
    by_cases hpw :
        (alistGet? ((pySplitWs s).foldl TemporalSlotChecker.tokenStep []) "password").isSome
    · simp only [hpw, if_true]
      exact hparams
    · simp only [hpw, Bool.false_eq_true, if_false]
      rw [alistGet?_append, hparams]
      simp only [alistGet?]
      exact if_neg (fun hh => hkp hh.symm)
  · intro s hk
    have hparams :
        alistGet? ((pySplitWs s).foldl TemporalSlotChecker.tokenStep []) "password" = none :=
      TemporalSlotChecker.foldl_tokenStep_preserve _ _ _ hk
    rw [hfold s hparams, alistGet?_append, hparams]
    simp [alistGet?]

/-- Witness for C7 at the concrete descriptor `"host=db1 port=5432"`
(the `user` and `password` keys are missing). -/
theorem C7_witness :
    (hasToken "user=" "host=db1 port=5432" = false
      ∧ ((ReplicationOverview.parse_conninfo "host=db1 port=5432").getD
          (none, none, none)).2.1 = none)
    ∧ (TemporalSlotChecker.NoKey "host=db1 port=5432" "user"
      ∧ alistGet? (TemporalSlotChecker.parse_conninfo "host=db1 port=5432") "user" = none)
    ∧ (TemporalSlotChecker.NoKey "host=db1 port=5432" "password"
      ∧ alistGet? (TemporalSlotChecker.parse_conninfo "host=db1 port=5432") "password"
          = some none) :=
  ⟨⟨by decide, C7_parse_conninfo_absent_unset.2.2.1 "host=db1 port=5432" (by decide)⟩,
   ⟨by decide,
    C7_parse_conninfo_absent_unset.2.2.2.2.1 "host=db1 port=5432" "user" (by decide)
      (by decide)⟩,
   ⟨by decide,
    C7_parse_conninfo_absent_unset.2.2.2.2.2 "host=db1 port=5432" (by decide)⟩⟩

/-- Value of an ASCII hexadecimal digit. -/
def hexVal (c : Char) : Option Nat :=
  if '0' ≤ c ∧ c ≤ '9' then some (c.toNat - '0'.toNat)
  else if 'a' ≤ c ∧ c ≤ 'f' then some (c.toNat - 'a'.toNat + 10)
  else if 'A' ≤ c ∧ c ≤ 'F' then some (c.toNat - 'A'.toNat + 10)
  else none

/-- Hex digits after the first one: single underscores are allowed between
digits, never doubled or trailing. -/
def hexDigits : List Char → Nat → Option Nat
  | [], acc => some acc
  | ['_'], _ => none
  | '_' :: c :: rest, acc =>
    match hexVal c with
    | some d => hexDigits rest (acc * 16 + d)
    | none => none
  | c :: rest, acc =>
    match hexVal c with
    | some d => hexDigits rest (acc * 16 + d)
    | none => none

/-- Start of the digit run: at least one digit is required; `allowU`
permits a single leading underscore (Python allows `0x_ff`). -/
def hexStart (cs : List Char) (allowU : Bool) : Option Nat :=
  match cs with
  | [] => none
  | '_' :: rest =>
    if allowU then
      match rest with
      | c :: rest2 =>
        (match hexVal c with
          | some d => hexDigits rest2 d
          | none => none)
      | [] => none
    else none
  | c :: rest =>
    match hexVal c with
    | some d => hexDigits rest d
    | none => none

/-- Model of Python `int(s, 16)` on a string: optional surrounding
whitespace, an optional sign, an optional `0x`/`0X` base marker, then a
nonempty run of ASCII hexadecimal digits with single underscores allowed
between digits.  `none` models the `ValueError` raised otherwise. -/
def pyIntHex (s : String) : Option Int :=
  let cs :=
    ((s.toList.dropWhile Char.isWhitespace).reverse.dropWhile Char.isWhitespace).reverse
  let signed : Bool × List Char :=
    match cs with
    | '+' :: r => (false, r)
    | '-' :: r => (true, r)
    | r => (false, r)
  let pref : Bool × List Char :=
    match signed.2 with
    | '0' :: 'x' :: r => (true, r)
    | '0' :: 'X' :: r => (true, r)
    | r => (false, r)
  match hexStart pref.2 pref.1 with
  | some v => some (if signed.1 then -(v : Int) else (v : Int))
  | none => none

namespace ReplicationOverview

/-- `calculate_replication_lag` from `reptool/replication_overview.py`
(lines 287-297): `None`/empty inputs are rejected up front, then both LSNs
are parsed as hex integers; a parse failure is the caught `ValueError`. -/
def calculate_replication_lag (publisher_lsn subscriber_lsn : Option String) :
    Option Int :=
  if !pyTruthyStr publisher_lsn || !pyTruthyStr subscriber_lsn then none
  else
    match pyIntHex (publisher_lsn.getD ""), pyIntHex (subscriber_lsn.getD "") with
    | some p, some s => some (p - s)
    | _, _ => none

end ReplicationOverview

namespace RdsReplicationOverview

/-- `calculate_replication_lag` from `rds_replication_overview.py`
(lines 239-245) on string inputs (the annotated parameter type); there is
no `None`/empty guard in this version, and an unparseable string is the
caught `ValueError`. -/
def calculate_replication_lag (publisher_lsn subscriber_lsn : String) : Option Int :=
  match pyIntHex publisher_lsn, pyIntHex subscriber_lsn with
  | some p, some s => some (p - s)
  | _, _ => none

/-- The same rds function applied to a possibly-`None` argument, as its
caller `generate_replication_report` can do (`sent_lsn`/`replay_lsn` come
from SQL and may be NULL).  `int(None, 16)` raises `TypeError`, which the
source's `except ValueError` does not catch: `Except.error` marks that
uncaught exception escaping the function. -/
def calculate_replication_lag_opt (publisher_lsn subscriber_lsn : Option String) :
    Except String (Option Int) :=
  match publisher_lsn with
  | none => .error "TypeError"
  | some pa =>
    match pyIntHex pa with
    | none => .ok none
    | some p =>
      match subscriber_lsn with
      | none => .error "TypeError"
      | some sb =>
        match pyIntHex sb with
        | none => .ok none
        | some s => .ok (some (p - s))

end RdsReplicationOverview

/-- C10 (amended): the `reptool` version of `calculate_replication_lag`
never raises, returns `None` exactly when an argument is `None`/empty or
not parseable as a hexadecimal integer, and otherwise returns the exact
(possibly negative) difference publisher − subscriber.  The rds version
behaves the same on string inputs, but an uncaught `TypeError` escapes it
when an argument is `None`. -/
theorem C10_replication_lag :
    (∀ pub sub : Option String,
      ReplicationOverview.calculate_replication_lag pub sub = none ↔
        (pyTruthyStr pub = false ∨ pyTruthyStr sub = false
          ∨ pyIntHex (pub.getD "") = none ∨ pyIntHex (sub.getD "") = none))
    ∧ (∀ (pub sub : Option String) (p s : Int),
        pyTruthyStr pub = true → pyTruthyStr sub = true →
        pyIntHex (pub.getD "") = some p → pyIntHex (sub.getD "") = some s →
        ReplicationOverview.calculate_replication_lag pub sub = some (p - s))
    ∧ (∀ (pub sub : Option String) (p s : Int),
        pyTruthyStr pub = true → pyTruthyStr sub = true →
        pyIntHex (pub.getD "") = some p → pyIntHex (sub.getD "") = some s →
        p < s →
        ReplicationOverview.calculate_replication_lag pub sub = some (p - s)
          ∧ p - s < 0)
    ∧ (∀ a b : String,
        RdsReplicationOverview.calculate_replication_lag a b = none ↔
          (pyIntHex a = none ∨ pyIntHex b = none))
    ∧ (∀ (a b : String) (p s : Int), pyIntHex a = some p → pyIntHex b = some s →
        RdsReplicationOverview.calculate_replication_lag a b = some (p - s)) := by
  have hmain : ∀ (pub sub : Option String),
      pyTruthyStr pub = true → pyTruthyStr sub = true →
      ReplicationOverview.calculate_replication_lag pub sub =
        (match pyIntHex (pub.getD ""), pyIntHex (sub.getD "") with
          | some p, some s => some (p - s)
          | _, _ => none) := by
    intro pub sub h1 h2
    rw [ReplicationOverview.calculate_replication_lag, h1, h2]
    simp
  refine ⟨?_, ?_, ?_, ?_, ?_⟩
  · intro pub sub
    by_cases h1 : pyTruthyStr pub
    · by_cases h2 : pyTruthyStr sub
      · rw [hmain pub sub h1 h2]
        cases hp : pyIntHex (pub.getD "") with
        | none => simp [h1, h2, hp]
        | some p =>
          cases hs : pyIntHex (sub.getD "") with
          | none => simp [h1, h2, hp, hs]
          | some s => simp [h1, h2, hp, hs]
      · have h2' : pyTruthyStr sub = false := Bool.not_eq_true _ |>.mp h2
        rw [ReplicationOverview.calculate_replication_lag]
        simp [h1, h2']
    · have h1' : pyTruthyStr pub = false := Bool.not_eq_true _ |>.mp h1
      rw [ReplicationOverview.calculate_replication_lag]
      simp [h1']
  · intro pub sub p s h1 h2 hp hs
    rw [hmain pub sub h1 h2, hp, hs]
  · intro pub sub p s h1 h2 hp hs hlt
    exact ⟨by rw [hmain pub sub h1 h2, hp, hs], by omega⟩
  · intro a b
    rw [RdsReplicationOverview.calculate_replication_lag]
    cases hp : pyIntHex a with
    | none => simp [hp]
    | some p =>
      cases hs : pyIntHex b with
      | none => simp [hp, hs]
      | some s => simp [hp, hs]
  · intro a b p s hp hs
    rw [RdsReplicationOverview.calculate_replication_lag, hp, hs]

/-- C10 counterexample: the rds version of `calculate_replication_lag`
raises an uncaught `TypeError` when handed a NULL (`None`) LSN, so "never
raises for every pair of inputs" fails for it. -/
theorem C10_cex_rds_raises :
    RdsReplicationOverview.calculate_replication_lag_opt none (some "1A") =
      Except.error "TypeError" := rfl

/-- Witness for C10: publisher `"10"` (= 16), subscriber `"20"` (= 32):
the lag is the exact negative difference −16, not clamped. -/
theorem C10_witness :
    ReplicationOverview.calculate_replication_lag (some "10") (some "20") =
        some (16 - 32)
      ∧ (16 : Int) - 32 < 0 :=
  C10_replication_lag.2.2.1 (some "10") (some "20") 16 32 (by decide) (by decide)
    (by decide) (by decide) (by decide)

/-- Convert a digit run to the number it denotes. -/
def digitsToNat (l : List Char) : Nat :=
  l.foldl (fun a c => a * 10 + (c.toNat - '0'.toNat)) 0

/-- Decide the pattern `^pg_(\d+)_sync_(\d+)_\d+$` and extract the two
captured numbers (subscription OID, table OID).  Digit runs cannot extend
across the literal separators, so greedy regex matching is equivalent to
this deterministic parse; `$` is modelled as end-of-string (slot names
cannot contain a newline). -/
def matchTemporal (name : String) : Option (Nat × Nat) :=
  let cs := name.toList
  if ("pg_".toList).isPrefixOf cs then
    let r1 := cs.drop 3
    let d1 := r1.takeWhile Char.isDigit
    let r2 := r1.dropWhile Char.isDigit
    if d1 ≠ [] ∧ ("_sync_".toList).isPrefixOf r2 then
      let r3 := r2.drop 6
      let d2 := r3.takeWhile Char.isDigit
      let r4 := r3.dropWhile Char.isDigit
      if d2 ≠ [] then
        match r4 with
        | '_' :: d3 =>
          if d3 ≠ [] ∧ d3.all Char.isDigit then some (digitsToNat d1, digitsToNat d2)
          else none
        | _ => none
      else none
    else none
  else none

namespace ReplicationOverview

/-- Catalog environment of `decode_temporal_slots`: the slot names
returned by its `pg_replication_slots` query, and its two lookup queries
(subscription name by OID; schema and relation name by table OID). -/
structure DecodeEnv where
  slotNames : List String
  subLookup : Nat → Option String
  tableLookup : Nat → Option (String × String)

/-- The per-slot record built by `decode_temporal_slots`. -/
structure DecodedSlot where
  subscription_oid : Nat
  subscription_name : Option String
  table_oid : Nat
  table_name : Option String
  orphaned : Bool
deriving DecidableEq, Repr

/-- The record built for one matching slot (`replication_overview.py`,
lines 540-563): `table_name` is `schema.relname` when both parts are
truthy, else `None`; `orphaned` is Python `not subname or not relname`. -/
def mkDecoded (env : DecodeEnv) (sub_oid rel_oid : Nat) : DecodedSlot :=
  let subname := env.subLookup sub_oid
  let tbl := env.tableLookup rel_oid
  let schema := tbl.map Prod.fst
  let relname := tbl.map Prod.snd
  { subscription_oid := sub_oid
    subscription_name := subname
    table_oid := rel_oid
    table_name :=
      if pyTruthyStr schema && pyTruthyStr relname then
        some ((schema.getD "") ++ "." ++ (relname.getD "")) else none
    orphaned := !pyTruthyStr subname || !pyTruthyStr relname }

/-- One iteration of the decoding loop: a non-matching name is skipped
(`continue`), a matching one is decoded and stored under its name. -/
def decodeStep (env : DecodeEnv) (acc : List (String × DecodedSlot))
    (slot_name : String) : List (String × DecodedSlot) :=
  match matchTemporal slot_name with
  | some oids => alistSet acc slot_name (mkDecoded env oids.1 oids.2)
  | none => acc

/-- `decode_temporal_slots` from `reptool/replication_overview.py`
(lines 523-565).  The SQL filter `slot_name ~ '^pg_\d+_sync_\d+_\d+$'` and
the later `re.match` use the same pattern, both modelled by
`matchTemporal`. -/
def decode_temporal_slots (env : DecodeEnv) : List (String × DecodedSlot) :=
  (env.slotNames.filter (fun n => (matchTemporal n).isSome)).foldl (decodeStep env) []

end ReplicationOverview

theorem mem_alistSet {κ ν : Type} [DecidableEq κ] {m : List (κ × ν)} {k : κ}
    {v : ν} {p : κ × ν} (h : p ∈ alistSet m k v) : p = (k, v) ∨ p ∈ m := by
  induction m with
  | nil =>
    rw [alistSet, List.mem_singleton] at h
    exact Or.inl h
  | cons q tl ih =>
    rw [alistSet] at h
    by_cases hq : q.1 = k
    · rw [if_pos hq, List.mem_cons] at h
      rcases h with h | h
      · exact Or.inl h
      · exact Or.inr (List.mem_cons_of_mem _ h)
    · rw [if_neg hq, List.mem_cons] at h
      rcases h with h | h
      · exact Or.inr (h ▸ List.mem_cons_self _ _)
      · rcases ih h with h2 | h2
        · exact Or.inl h2
        · exact Or.inr (List.mem_cons_of_mem _ h2)

theorem mem_of_alistGet? {κ ν : Type} [DecidableEq κ] {m : List (κ × ν)} {k : κ}
    {v : ν} (h : alistGet? m k = some v) : (k, v) ∈ m := by
  induction m with
  | nil => exact Option.noConfusion h
  | cons q tl ih =>
    rw [alistGet?] at h
    by_cases hq : q.1 = k
    · rw [if_pos hq, Option.some_inj] at h
      have : (k, v) = q := by
        rw [← hq, ← h]
      exact this ▸ List.mem_cons_self _ _
    · rw [if_neg hq] at h
      exact List.mem_cons_of_mem _ (ih h)

namespace ReplicationOverview

theorem decodeStep_fold_ok (env : DecodeEnv) (l : List String)
    (acc : List (String × DecodedSlot))
    (hacc : ∀ p ∈ acc, ∃ o1 o2,
      matchTemporal p.1 = some (o1, o2) ∧ p.2 = mkDecoded env o1 o2) :
    ∀ p ∈ l.foldl (decodeStep env) acc,
      ∃ o1 o2, matchTemporal p.1 = some (o1, o2) ∧ p.2 = mkDecoded env o1 o2 := by
  induction l generalizing acc with
  | nil => exact hacc
  | cons x tl ih =>
    rw [List.foldl_cons]
    apply ih
    intro p hp
    rw [decodeStep] at hp
    cases hm : matchTemporal x with
    | none => rw [hm] at hp; exact hacc p hp
    | some oids =>
      rw [hm] at hp
      rcases mem_alistSet hp with heq | hmem
      · exact ⟨oids.1, oids.2, by rw [heq]; simpa using hm, by rw [heq]⟩
      · exact hacc p hmem

theorem decodeStep_fold_none (env : DecodeEnv) (l : List String)
    (acc : List (String × DecodedSlot)) {name : String}
    (h : matchTemporal name = none) (hacc : alistGet? acc name = none) :
    alistGet? (l.foldl (decodeStep env) acc) name = none := by
  induction l generalizing acc with
  | nil => exact hacc
  | cons x tl ih =>
    rw [List.foldl_cons]
    apply ih
    rw [decodeStep]
    cases hm : matchTemporal x with
    | none => exact hacc
    | some oids =>
      have hx : name ≠ x := fun hh => by rw [hh, hm] at h; exact Option.noConfusion h
      rw [alistGet?_set_ne _ _ hx]
      exact hacc

end ReplicationOverview

theorem pyTruthyStr_some_ne {n : String} (h : n ≠ "") :
    pyTruthyStr (some n) = true := by
  cases hn : n.isEmpty with
  | false => simp [pyTruthyStr, hn]
  | true => exact absurd ((String.isEmpty_iff n).mp hn) h

/-- Concrete catalog environment of the C8 scenario: the host carries the
slot `pg_16398_sync_24601_1` and neither subscription OID 16398 nor table
OID 24601 resolves. -/
def envC8 : ReplicationOverview.DecodeEnv :=
  { slotNames := ["pg_16398_sync_24601_1"]
    subLookup := fun _ => none
    tableLookup := fun _ => none }

/-- C8: a slot name is decoded exactly when it matches the synthetic
pattern; a decoded slot is orphaned exactly when the subscription lookup or
the table lookup fails (catalog lookups return nonempty names); and the
scenario slot `pg_16398_sync_24601_1` with subscription OID 16398 not found
decodes with `orphaned = true` and an empty table field. -/
theorem C8_temporal_slot_decoding :
    (∀ (env : ReplicationOverview.DecodeEnv) (name : String)
        (d : ReplicationOverview.DecodedSlot),
      (∀ o n, env.subLookup o = some n → n ≠ "") →
      (∀ o pr, env.tableLookup o = some pr → pr.2 ≠ "") →
      alistGet? (ReplicationOverview.decode_temporal_slots env) name = some d →
      matchTemporal name = some (d.subscription_oid, d.table_oid)
      ∧ (d.orphaned = true ↔
          env.subLookup d.subscription_oid = none
            ∨ env.tableLookup d.table_oid = none))
    ∧ (∀ (env : ReplicationOverview.DecodeEnv) (name : String),
        matchTemporal name = none →
        alistGet? (ReplicationOverview.decode_temporal_slots env) name = none)
    ∧ matchTemporal "pg_16398_sync_24601_1" = some (16398, 24601)
    ∧ alistGet? (ReplicationOverview.decode_temporal_slots envC8)
          "pg_16398_sync_24601_1" =
        some { subscription_oid := 16398, subscription_name := none,
               table_oid := 24601, table_name := none, orphaned := true } := by
  refine ⟨?_, ?_, by decide, by decide⟩
  · intro env name d hs ht hget
    have hmem := mem_of_alistGet? hget
    obtain ⟨o1, o2, hmatch0, hd0⟩ :=
      ReplicationOverview.decodeStep_fold_ok env _ [] (by intro p hp; cases hp)
        (name, d) hmem
    have hmatch : matchTemporal name = some (o1, o2) := hmatch0
    have hd : d = ReplicationOverview.mkDecoded env o1 o2 := hd0
    have hoid1 : d.subscription_oid = o1 := by rw [hd]; rfl
    have hoid2 : d.table_oid = o2 := by rw [hd]; rfl
    refine ⟨by rw [hoid1, hoid2]; exact hmatch, ?_⟩
    rw [hoid1, hoid2]
    have horph : d.orphaned =
        (!pyTruthyStr (env.subLookup o1)
          || !pyTruthyStr ((env.tableLookup o2).map Prod.snd)) := by
      rw [hd]; rfl
    rw [horph]
    cases hsub : env.subLookup o1 with
    | none => simp [pyTruthyStr]
    | some n =>
      have hn := pyTruthyStr_some_ne (hs o1 n hsub)
      cases htbl : env.tableLookup o2 with
      | none => simp [pyTruthyStr, hn]
      | some pr =>
        have hp := pyTruthyStr_some_ne (ht o2 pr htbl)
        have hn2 : n.isEmpty = false := by simpa [pyTruthyStr] using hn
        have hp2 : pr.2.isEmpty = false := by simpa [pyTruthyStr] using hp
        simp [pyTruthyStr, hn2, hp2]
  · intro env name h
    exact ReplicationOverview.decodeStep_fold_none env _ [] h rfl

/-- Witness for C8 at the concrete environment `envC8`: the theorem applied
to the scenario slot, with both catalog lookups failing. -/
theorem C8_witness :
    matchTemporal "pg_16398_sync_24601_1" = some (16398, 24601)
    ∧ ((true : Bool) = true ↔
        envC8.subLookup 16398 = none ∨ envC8.tableLookup 24601 = none) :=
  C8_temporal_slot_decoding.1 envC8 "pg_16398_sync_24601_1"
    { subscription_oid := 16398, subscription_name := none,
      table_oid := 24601, table_name := none, orphaned := true }
    (fun _ _ h => Option.noConfusion h)
    (fun _ _ h => Option.noConfusion h)
    (by decide)

namespace ReplicationOverview

/-- The slot dict entries read by `assess_replication_health` (plus the
ownership fields written by `_get_subscription_ownership`).  `lag_mb` is
`lag_bytes / (1024*1024)` as an exact rational; `lag` is the
`pg_size_pretty` string stored alongside it; both are set together by
`_get_replication_slots`, so `lag = ""` models the key being absent.  The
remaining SQL columns carried in the dict are never read by the functions
modelled here. -/
structure SlotInfo where
  connection_state : Option String := none
  active : Option Bool := none
  lag_mb : Option ℚ := none
  lag : String := ""
  owner : Option String := none
  owner_source : Option String := none
deriving DecidableEq, Repr

/-- One entry of `inactive_replication.inactive_slots`: either the dict
form `{name, type, retained_wal}` or the legacy tuple form, distinguished
by `isinstance(slot, dict)` in the source (the `type` field is never
read). -/
inductive InactiveEntry
  | dictE (name : String) (retained_wal : String)
  | tupleE (name : String)
deriving DecidableEq, Repr

/-- The per-host status fields read by `assess_replication_health`
(`report['instance_statuses']` values).  `inactive_slots` flattens
`status['inactive_replication']['inactive_slots']`. -/
structure HostStatus where
  replication_slots : List (String × SlotInfo) := []
  wal_generation_rate_mb_per_sec : Option ℚ := none
  inactive_slots : List InactiveEntry := []
deriving DecidableEq, Repr

/-- The part of the report consumed by `assess_replication_health`: it only
reads `report['instance_statuses']`. -/
structure Report where
  instance_statuses : List (String × HostStatus) := []
deriving DecidableEq, Repr

/-- `get_short_hostname` (lines 43-46): the part before the first dot. -/
def get_short_hostname (host : String) : String :=
  if host.toList.contains '.' then String.mk (host.toList.takeWhile (fun c => c ≠ '.'))
  else host

/-- The running state of `assess_replication_health`: the health dict under
construction plus the `slots_with_lag` / `inactive_slots` / `slot_states`
trackers (recommendations are built afterwards from these). -/
structure AState where
  overall : Sev := .HEALTHY
  issues : List String := []
  slots_with_lag : List (String × String) := []
  inactive_acc : List (String × String) := []
  slot_states : List (String × String) := []
deriving DecidableEq, Repr

/-- The connection-state classification of one slot (lines 52-58). -/
def slotState (si : SlotInfo) : String :=
  if pyTruthyStr si.connection_state then si.connection_state.getD ""
  else if si.active = some false then "inactive"
  else "unknown"

def critLagMsg (sn host : String) (si : SlotInfo) (state : String) : String :=
  "Critical replication lag in slot " ++ sn ++ " on " ++ get_short_hostname host
    ++ ": " ++ si.lag ++ " (" ++ fmt2 (si.lag_mb.getD 0) ++ " MB), state: " ++ state

def highLagMsg (sn host : String) (si : SlotInfo) (state : String) : String :=
  "High replication lag in slot " ++ sn ++ " on " ++ get_short_hostname host
    ++ ": " ++ si.lag ++ " (" ++ fmt2 (si.lag_mb.getD 0) ++ " MB), state: " ++ state

/-- One slot of the lag loop (lines 51-68): record the connection state,
then classify `slot_info.get('lag_mb', 0)` against the strict thresholds
`> 100` and `> 10`. -/
def lagSlotStep (host : String) (st : AState) (p : String × SlotInfo) : AState :=
  let sn := p.1
  let si := p.2
  let state := slotState si
  let st := { st with slot_states := alistSet st.slot_states sn state }
  if si.lag_mb.getD 0 > 100 then
    { st with issues := st.issues ++ [critLagMsg sn host si state]
              slots_with_lag := st.slots_with_lag ++ [(sn, host)]
              overall := .CRITICAL }
  else if si.lag_mb.getD 0 > 10 then
    { st with issues := st.issues ++ [highLagMsg sn host si state]
              slots_with_lag := st.slots_with_lag ++ [(sn, host)]
              overall := if st.overall = .CRITICAL then st.overall else .WARNING }
  else st

/-- The lag loop over all hosts and slots (lines 49-68). -/
def lagPhase (r : Report) (st : AState) : AState :=
  r.instance_statuses.foldl
    (fun st hp => hp.2.replication_slots.foldl (lagSlotStep hp.1) st) st

/-- One host of the WAL-generation-rate loop (lines 72-79); the
`high_wal_hosts` list the source also fills is never read afterwards. -/
def walStep (st : AState) (hp : String × HostStatus) : AState :=
  let wal := hp.2.wal_generation_rate_mb_per_sec.getD 0
  if wal > 10 then
    { st with
        issues := st.issues ++
          ["High WAL generation rate on " ++ get_short_hostname hp.1 ++ ": "
            ++ fmt2 wal ++ "MB/s"],
        overall := if st.overall = .CRITICAL then st.overall else .WARNING }
  else st

def walPhase (r : Report) (st : AState) : AState :=
  r.instance_statuses.foldl walStep st

/-- One inactive-slot entry of the inactive-replication loop
(lines 86-98). -/
def inactStep (host : String) (st : AState) (e : InactiveEntry) : AState :=
  let sn := match e with
    | .dictE n _ => n
    | .tupleE n => n
  let desc := match e with
    | .dictE n rw => n ++ " (" ++ rw ++ " WAL retained)"
    | .tupleE n => n
  { st with
      issues := st.issues ++
        ["Inactive replication slot " ++ desc ++ " on " ++ get_short_hostname host],
      inactive_acc := st.inactive_acc ++ [(sn, host)],
      overall := if st.overall = .CRITICAL then st.overall else .WARNING }

def inactPhase (r : Report) (st : AState) : AState :=
  r.instance_statuses.foldl (fun st hp => hp.2.inactive_slots.foldl (inactStep hp.1) st) st

/-- State after the three issue loops, before recommendations. -/
def preRec (r : Report) : AState :=
  inactPhase r (walPhase r (lagPhase r {}))

def lagRecStr (sn host state : String) : String :=
  "Check for blocking transactions on subscriber connected to " ++ sn ++ " on "
    ++ get_short_hostname host ++ " (state: " ++ state ++ ")"

/-- `slots[:3]` joined with `", "`, plus `" and N more"` when the list is
longer than 3. -/
def moreList (slots : List String) : String :=
  joinSep ", " (slots.take 3)
    ++ (if slots.length > 3 then " and " ++ toString (slots.length - 3) ++ " more" else "")

def groupLagRecStr (state : String) (slots : List String) : String :=
  "Check for blocking transactions on subscribers in " ++ state ++ " state: "
    ++ moreList slots

def inactRecStr (sn host : String) : String :=
  "Check if the subscriber connected to " ++ sn ++ " on " ++ get_short_hostname host
    ++ " is down or reactivate the slot"

/-- Grouping of the lagging slots by connection state (lines 111-114):
`by_state.setdefault(state, []).append(slot_name)`. -/
def byState (st : AState) : List (String × List String) :=
  st.slots_with_lag.foldl
    (fun m p => alistPush m (dget st.slot_states p.1 "unknown") p.1) []

/-- The static per-state explanation table (lines 148-156). -/
def state_recommendations (state : String) : Option String :=
  if state = "startup" then
    some "Startup state indicates subscribers are initializing connections. If stuck in this state, check for network connectivity issues."
  else if state = "catchup" then
    some "Catchup state means subscribers are actively catching up with WAL. If persistently lagging, check subscriber server resources."
  else if state = "streaming" then
    some "Streaming is the normal operating state. High lag in this state may indicate insufficient resources on subscribers."
  else if state = "backup" then
    some "Backup state indicates a backup operation is in progress. This may temporarily increase replication lag."
  else if state = "stopping" then
    some "Stopping state means replication is being terminated. Check if this is intentional or if there\x27s an error on subscribers."
  else if state = "inactive" then
    some "Inactive slots are not currently connected. Check if the subscriber service is running and has network connectivity."
  else if state = "unknown" then
    some "Unknown state could indicate connection issues or permission problems. Check subscription status on both ends."
  else none

def staticRecStr (state text : String) : String :=
  "For " ++ state ++ " slots: " ++ text

/-- `"Connection state summary: ..."` (lines 140-145): counts of the
tracked slot states, rendered over the sorted distinct states (Python
sorts the `(state, count)` items; states are dict keys, hence unique). -/
def summaryStr (st : AState) : String :=
  let vals := st.slot_states.map Prod.snd
  "Connection state summary: "
    ++ joinSep "; " ((sortStrings vals.dedup).map (fun s =>
        toString (vals.count s) ++ " slots in \x27" ++ s ++ "\x27 state"))

/-- The lag-slot recommendation section (lines 101-122). -/
def recsLag (st : AState) (recs : List String) : List String :=
  if st.slots_with_lag ≠ [] then
    if st.slots_with_lag.length ≤ 3 then
      st.slots_with_lag.foldl
        (fun a p => addRec a (lagRecStr p.1 p.2 (dget st.slot_states p.1 "unknown"))) recs
    else
      (byState st).foldl (fun a g => addRec a (groupLagRecStr g.1 g.2)) recs
  else recs

/-- The inactive-slot recommendation section (lines 124-136). -/
def recsInact (st : AState) (recs : List String) : List String :=
  if st.inactive_acc ≠ [] then
    if st.inactive_acc.length ≤ 3 then
      st.inactive_acc.foldl (fun a p => addRec a (inactRecStr p.1 p.2)) recs
    else
      addRec
        (addRec recs
          ("Inactive replication slots detected: "
            ++ moreList (st.inactive_acc.map Prod.fst)))
        "Check if subscribers are down or reactivate slots if needed"
  else recs

/-- The state-summary and static per-state section (lines 139-161). -/
def recsSummary (st : AState) (recs : List String) : List String :=
  if st.slots_with_lag ≠ [] ∨ st.inactive_acc ≠ [] then
    (sortStrings (st.slot_states.map Prod.snd).dedup).foldl
      (fun a state =>
        match state_recommendations state with
        | some txt => addRec a (staticRecStr state txt)
        | none => a)
      (addRec recs (summaryStr st))
  else recs

/-- The full recommendation set of one assessment, before sorting. -/
def recsOf (st : AState) : List String :=
  recsSummary st (recsInact st (recsLag st []))

/-- The value returned by `assess_replication_health`. -/
structure HealthReport where
  overall : Sev
  issues : List String
  recommendations : List String
deriving DecidableEq, Repr

/-- `assess_replication_health` from `reptool/replication_overview.py`
(lines 30-165): the three issue loops in order, then the recommendation
set, returned sorted. -/
def assess_replication_health (r : Report) : HealthReport :=
  let st := preRec r
  { overall := st.overall
    issues := st.issues
    recommendations := sortStrings (recsOf st) }

end ReplicationOverview

namespace ReplicationOverview

theorem sevLE_guard (o : Sev) :
    sevLE o (if o = Sev.CRITICAL then o else Sev.WARNING) := by
  by_cases h : o = Sev.CRITICAL
  · rw [if_pos h]; exact sevLE_refl o
  · rw [if_neg h]
    cases o with
    | HEALTHY => decide
    | WARNING => decide
    | CRITICAL => exact absurd rfl h

theorem warn_le_guard (o : Sev) :
    sevLE Sev.WARNING (if o = Sev.CRITICAL then o else Sev.WARNING) := by
  by_cases h : o = Sev.CRITICAL
  · rw [if_pos h, h]; decide
  · rw [if_neg h]; decide

theorem lagSlotStep_mono (host : String) (st : AState) (p : String × SlotInfo) :
    sevLE st.overall (lagSlotStep host st p).overall := by
  rw [lagSlotStep]
  by_cases h1 : p.2.lag_mb.getD 0 > 100
  · rw [if_pos h1]; exact sevLE_crit _
  · rw [if_neg h1]
    by_cases h2 : p.2.lag_mb.getD 0 > 10
    · rw [if_pos h2]; exact sevLE_guard _
    · rw [if_neg h2]; exact sevLE_refl _

theorem walStep_mono (st : AState) (hp : String × HostStatus) :
    sevLE st.overall (walStep st hp).overall := by
  rw [walStep]
  by_cases h : hp.2.wal_generation_rate_mb_per_sec.getD 0 > 10
  · rw [if_pos h]; exact sevLE_guard _
  · rw [if_neg h]; exact sevLE_refl _

theorem inactStep_mono (host : String) (st : AState) (e : InactiveEntry) :
    sevLE st.overall (inactStep host st e).overall :=
  sevLE_guard _

theorem foldl_overall_mono {β : Type} (f : AState → β → AState)
    (hf : ∀ st b, sevLE st.overall (f st b).overall) :
    ∀ (l : List β) (st : AState), sevLE st.overall (l.foldl f st).overall := by
  intro l
  induction l with
  | nil => intro st; exact sevLE_refl _
  | cons x tl ih =>
    intro st
    rw [List.foldl_cons]
    exact sevLE_trans (hf st x) (ih (f st x))

theorem foldl_overall_crit {β : Type} (f : AState → β → AState)
    (hf : ∀ st b, sevLE st.overall (f st b).overall)
    (l : List β) (st : AState) (h : st.overall = Sev.CRITICAL) :
    (l.foldl f st).overall = Sev.CRITICAL :=
  eq_crit_of_crit_le (h ▸ foldl_overall_mono f hf l st)

theorem foldl_overall_hit {β : Type} (f : AState → β → AState)
    (hf : ∀ st b, sevLE st.overall (f st b).overall)
    (l : List β) (b : β) (hb : b ∈ l)
    (hcrit : ∀ st, (f st b).overall = Sev.CRITICAL) :
    ∀ st, (l.foldl f st).overall = Sev.CRITICAL := by
  induction l with
  | nil => cases hb
  | cons x tl ih =>
    intro st
    rw [List.foldl_cons]
    rcases List.mem_cons.mp hb with hbx | hbtl
    · subst hbx
      exact foldl_overall_crit f hf tl _ (hcrit st)
    · exact ih hbtl _

theorem foldl_overall_warn {β : Type} (f : AState → β → AState)
    (hf : ∀ st b, sevLE st.overall (f st b).overall)
    (l : List β) (b : β) (hb : b ∈ l)
    (hwarn : ∀ st, sevLE Sev.WARNING (f st b).overall) :
    ∀ st, sevLE Sev.WARNING (l.foldl f st).overall := by
  induction l with
  | nil => cases hb
  | cons x tl ih =>
    intro st
    rw [List.foldl_cons]
    rcases List.mem_cons.mp hb with hbx | hbtl
    · subst hbx
      exact sevLE_trans (hwarn st) (foldl_overall_mono f hf tl _)
    · exact ih hbtl _

theorem lagHostStep_mono (st : AState) (hp : String × HostStatus) :
    sevLE st.overall
      (hp.2.replication_slots.foldl (lagSlotStep hp.1) st).overall :=
  foldl_overall_mono _ (lagSlotStep_mono hp.1) _ st

theorem lagPhase_mono (r : Report) (st : AState) :
    sevLE st.overall (lagPhase r st).overall :=
  foldl_overall_mono _ lagHostStep_mono _ st

theorem walPhase_mono (r : Report) (st : AState) :
    sevLE st.overall (walPhase r st).overall :=
  foldl_overall_mono _ walStep_mono _ st

theorem inactHostStep_mono (st : AState) (hp : String × HostStatus) :
    sevLE st.overall (hp.2.inactive_slots.foldl (inactStep hp.1) st).overall :=
  foldl_overall_mono _ (inactStep_mono hp.1) _ st

theorem inactPhase_mono (r : Report) (st : AState) :
    sevLE st.overall (inactPhase r st).overall :=
  foldl_overall_mono _ inactHostStep_mono _ st

theorem lagSlotStep_crit (host : String) (p : String × SlotInfo)
    (hp : p.2.lag_mb.getD 0 > 100) :
    ∀ st, (lagSlotStep host st p).overall = Sev.CRITICAL := by
  intro st
  rw [lagSlotStep]
  rw [if_pos hp]

theorem lagSlotStep_warnHit (host : String) (p : String × SlotInfo)
    (hp : p.2.lag_mb.getD 0 > 10) :
    ∀ st, sevLE Sev.WARNING (lagSlotStep host st p).overall := by
  intro st
  rw [lagSlotStep]
  by_cases h1 : p.2.lag_mb.getD 0 > 100
  · rw [if_pos h1]
    exact (by decide : sevLE Sev.WARNING Sev.CRITICAL)
  · rw [if_neg h1, if_pos hp]
    exact warn_le_guard _

/-- A slot anywhere in the report with `lag_mb > 100` forces the final
overall severity to CRITICAL. -/
theorem assess_crit_of_lag {r : Report} {h : String} {hs : HostStatus}
    {sn : String} {si : SlotInfo}
    (hmem : (h, hs) ∈ r.instance_statuses)
    (hslot : (sn, si) ∈ hs.replication_slots)
    (hlag : si.lag_mb.getD 0 > 100) :
    (assess_replication_health r).overall = Sev.CRITICAL := by
  have hlagPhase : (lagPhase r {}).overall = Sev.CRITICAL := by
    rw [lagPhase]
    exact foldl_overall_hit _ lagHostStep_mono _ (h, hs) hmem
      (fun st2 =>
        foldl_overall_hit (lagSlotStep h) (lagSlotStep_mono h)
          hs.replication_slots (sn, si) hslot
          (lagSlotStep_crit h (sn, si) hlag) st2)
      {}
  show (preRec r).overall = Sev.CRITICAL
  rw [preRec]
  exact eq_crit_of_crit_le
    ((eq_crit_of_crit_le (hlagPhase ▸ walPhase_mono r _)) ▸ inactPhase_mono r _)

/-- A slot anywhere in the report with `lag_mb > 10` forces the final
overall severity to at least WARNING. -/
theorem assess_warn_of_lag {r : Report} {h : String} {hs : HostStatus}
    {sn : String} {si : SlotInfo}
    (hmem : (h, hs) ∈ r.instance_statuses)
    (hslot : (sn, si) ∈ hs.replication_slots)
    (hlag : si.lag_mb.getD 0 > 10) :
    sevLE Sev.WARNING (assess_replication_health r).overall := by
  have hlagPhase : sevLE Sev.WARNING (lagPhase r {}).overall := by
    rw [lagPhase]
    exact foldl_overall_warn _ lagHostStep_mono _ (h, hs) hmem
      (fun st2 =>
        foldl_overall_warn (lagSlotStep h) (lagSlotStep_mono h)
          hs.replication_slots (sn, si) hslot
          (lagSlotStep_warnHit h (sn, si) hlag) st2)
      {}
  show sevLE Sev.WARNING (preRec r).overall
  rw [preRec]
  exact sevLE_trans (sevLE_trans hlagPhase (walPhase_mono r _)) (inactPhase_mono r _)

end ReplicationOverview

/-- The slot of the C1 scenario: lag 150 MB, active, streaming. -/
def si150 : ReplicationOverview.SlotInfo :=
  { connection_state := some "streaming", active := some true,
    lag_mb := some 150, lag := "150 MB" }

/-- Host B of the C1 scenario, reporting the 150 MB slot. -/
def hsB : ReplicationOverview.HostStatus :=
  { replication_slots := [("sub_b_slot", si150)] }

/-- The C1 scenario report: publisher A and subscriber B, B reporting one
slot with 150 MB of lag. -/
def scenarioC1 : ReplicationOverview.Report :=
  { instance_statuses := [("A", {}), ("B", hsB)] }

/-- C1 (amended): the lag thresholds are strict — `lag_mb > 100` forces
CRITICAL, `10 < lag_mb ≤ 100` forces at least WARNING (WARNING unless the
overall is already CRITICAL) — and the 150 MB scenario yields CRITICAL with
exactly one lag issue naming the slot and host B. -/
theorem C1_lag_thresholds :
    (∀ (r : ReplicationOverview.Report) (h : String)
        (hs : ReplicationOverview.HostStatus) (sn : String)
        (si : ReplicationOverview.SlotInfo),
      (h, hs) ∈ r.instance_statuses → (sn, si) ∈ hs.replication_slots →
      si.lag_mb.getD 0 > 100 →
      (ReplicationOverview.assess_replication_health r).overall = Sev.CRITICAL)
    ∧ (∀ (r : ReplicationOverview.Report) (h : String)
        (hs : ReplicationOverview.HostStatus) (sn : String)
        (si : ReplicationOverview.SlotInfo),
      (h, hs) ∈ r.instance_statuses → (sn, si) ∈ hs.replication_slots →
      si.lag_mb.getD 0 > 10 → si.lag_mb.getD 0 ≤ 100 →
      sevLE Sev.WARNING
        (ReplicationOverview.assess_replication_health r).overall)
    ∧ (ReplicationOverview.assess_replication_health scenarioC1).overall = Sev.CRITICAL
    ∧ (ReplicationOverview.assess_replication_health scenarioC1).issues =
        ["Critical replication lag in slot sub_b_slot on B: 150 MB (150.00 MB), state: streaming"] := by
  refine ⟨?_, ?_, by decide, by decide⟩
  · intro r h hs sn si hmem hslot hlag
    exact ReplicationOverview.assess_crit_of_lag hmem hslot hlag
  · intro r h hs sn si hmem hslot hlag _
    exact ReplicationOverview.assess_warn_of_lag hmem hslot hlag

/-- The boundary slot of the C1 counterexample: lag exactly 100 MB. -/
def si100 : ReplicationOverview.SlotInfo :=
  { connection_state := some "streaming", active := some true,
    lag_mb := some 100, lag := "100 MB" }

/-- The C1 counterexample report: one host with the 100 MB slot. -/
def reportLag100 : ReplicationOverview.Report :=
  { instance_statuses := [("B", { replication_slots := [("s100", si100)] })] }

/-- C1 counterexample: a slot whose lag is exactly 100 MB (so "at least
100 MB" holds) is classified WARNING, not CRITICAL — the code's threshold
is strictly greater than 100. -/
theorem C1_cex_boundary :
    si100.lag_mb.getD 0 ≥ 100
    ∧ (ReplicationOverview.assess_replication_health reportLag100).overall
        = Sev.WARNING
    ∧ (ReplicationOverview.assess_replication_health reportLag100).overall
        ≠ Sev.CRITICAL := by
  refine ⟨by decide, by decide, by decide⟩

/-- Witness for C1 at the scenario report: both threshold conjuncts applied
to the 150 MB slot of host B. -/
theorem C1_witness :
    ("B", hsB) ∈ scenarioC1.instance_statuses
    ∧ ("sub_b_slot", si150) ∈ hsB.replication_slots
    ∧ si150.lag_mb.getD 0 > 100
    ∧ (ReplicationOverview.assess_replication_health scenarioC1).overall
        = Sev.CRITICAL :=
  ⟨by decide, by decide, by decide,
   C1_lag_thresholds.1 scenarioC1 "B" hsB "sub_b_slot" si150 (by decide)
     (by decide) (by decide)⟩

/-- C4: severity is monotonically escalating: each of the three issue
phases can only raise the overall severity, the recommendation phase never
touches it, and appending a host with a CRITICAL-triggering slot to a
HEALTHY/WARNING report re-evaluates to CRITICAL — never lower than
before. -/
theorem C4_monotonic_escalation :
    (∀ (r : ReplicationOverview.Report) (st : ReplicationOverview.AState),
      sevLE st.overall (ReplicationOverview.lagPhase r st).overall)
    ∧ (∀ (r : ReplicationOverview.Report) (st : ReplicationOverview.AState),
      sevLE st.overall (ReplicationOverview.walPhase r st).overall)
    ∧ (∀ (r : ReplicationOverview.Report) (st : ReplicationOverview.AState),
      sevLE st.overall (ReplicationOverview.inactPhase r st).overall)
    ∧ (∀ r : ReplicationOverview.Report,
      (ReplicationOverview.assess_replication_health r).overall
        = (ReplicationOverview.preRec r).overall)
    ∧ (∀ (r : ReplicationOverview.Report) (h : String)
        (hs : ReplicationOverview.HostStatus) (sn : String)
        (si : ReplicationOverview.SlotInfo),
      ((ReplicationOverview.assess_replication_health r).overall = Sev.HEALTHY
        ∨ (ReplicationOverview.assess_replication_health r).overall = Sev.WARNING) →
      (sn, si) ∈ hs.replication_slots → si.lag_mb.getD 0 > 100 →
      (ReplicationOverview.assess_replication_health
          { instance_statuses := r.instance_statuses ++ [(h, hs)] }).overall
        = Sev.CRITICAL
      ∧ sevLE (ReplicationOverview.assess_replication_health r).overall
          (ReplicationOverview.assess_replication_health
            { instance_statuses := r.instance_statuses ++ [(h, hs)] }).overall) := by
  refine ⟨ReplicationOverview.lagPhase_mono, ReplicationOverview.walPhase_mono,
    ReplicationOverview.inactPhase_mono, fun _ => rfl, ?_⟩
  intro r h hs sn si _ hslot hlag
  have hmem : (h, hs) ∈ r.instance_statuses ++ [(h, hs)] :=
    List.mem_append_right _ (List.mem_singleton.mpr rfl)
  have hcrit :
      (ReplicationOverview.assess_replication_health
        { instance_statuses := r.instance_statuses ++ [(h, hs)] }).overall
      = Sev.CRITICAL :=
    ReplicationOverview.assess_crit_of_lag (r := { instance_statuses := r.instance_statuses ++ [(h, hs)] })
      hmem hslot hlag
  exact ⟨hcrit, hcrit ▸ sevLE_crit _⟩

/-- Witness for C4: the empty report is HEALTHY; appending host B with the
150 MB slot escalates to CRITICAL. -/
theorem C4_witness :
    ((ReplicationOverview.assess_replication_health ({} : ReplicationOverview.Report)).overall
        = Sev.HEALTHY
      ∨ (ReplicationOverview.assess_replication_health ({} : ReplicationOverview.Report)).overall
        = Sev.WARNING)
    ∧ ("sub_b_slot", si150) ∈ hsB.replication_slots
    ∧ si150.lag_mb.getD 0 > 100
    ∧ ((ReplicationOverview.assess_replication_health
          { instance_statuses := [] ++ [("B", hsB)] }).overall = Sev.CRITICAL
      ∧ sevLE (ReplicationOverview.assess_replication_health
            ({} : ReplicationOverview.Report)).overall
          (ReplicationOverview.assess_replication_health
            { instance_statuses := [] ++ [("B", hsB)] }).overall) :=
  ⟨by decide, by decide, by decide,
   C4_monotonic_escalation.2.2.2.2 {} "B" hsB "sub_b_slot" si150 (by decide)
     (by decide) (by decide)⟩

theorem mem_addRec_self (l : List String) (x : String) : x ∈ addRec l x := by
  rw [addRec]
  by_cases h : x ∈ l
  · rw [if_pos h]; exact h
  · rw [if_neg h]; exact List.mem_append_right _ (List.mem_singleton.mpr rfl)

theorem mem_addRec_of_mem {l : List String} {y : String} (x : String)
    (h : y ∈ l) : y ∈ addRec l x := by
  rw [addRec]
  by_cases hx : x ∈ l
  · rw [if_pos hx]; exact h
  · rw [if_neg hx]; exact List.mem_append_left _ h

theorem addRec_nodup {l : List String} (x : String) (h : l.Nodup) :
    (addRec l x).Nodup := by
  rw [addRec]
  by_cases hx : x ∈ l
  · rw [if_pos hx]; exact h
  · rw [if_neg hx]
    rw [List.nodup_append]
    exact ⟨h, List.nodup_singleton x,
      fun a ha hax => hx ((List.mem_singleton.mp hax) ▸ ha)⟩

theorem foldl_pres_nodup {β : Type} (g : List String → β → List String)
    (hg : ∀ a b, a.Nodup → (g a b).Nodup) :
    ∀ (l : List β) (a : List String), a.Nodup → (l.foldl g a).Nodup := by
  intro l
  induction l with
  | nil => intro a ha; exact ha
  | cons x tl ih =>
    intro a ha
    rw [List.foldl_cons]
    exact ih _ (hg a x ha)

theorem foldl_pres_mem {β : Type} (g : List String → β → List String)
    (hg : ∀ a b y, y ∈ a → y ∈ g a b) :
    ∀ (l : List β) (a : List String) (y : String), y ∈ a → y ∈ l.foldl g a := by
  intro l
  induction l with
  | nil => intro a y hy; exact hy
  | cons x tl ih =>
    intro a y hy
    rw [List.foldl_cons]
    exact ih _ _ (hg a x y hy)

theorem foldl_addRec_hit {β : Type} (f : β → String)
    (l : List β) (b : β) (hb : b ∈ l) (a : List String) :
    f b ∈ l.foldl (fun acc x => addRec acc (f x)) a := by
  induction l generalizing a with
  | nil => cases hb
  | cons x tl ih =>
    rw [List.foldl_cons]
    rcases List.mem_cons.mp hb with hbx | hbtl
    · subst hbx
      exact foldl_pres_mem _ (fun a2 b2 y hy => mem_addRec_of_mem _ hy) tl _ _
        (mem_addRec_self a (f b))
    · exact ih hbtl _

theorem sortStrings_nodup {l : List String} (h : l.Nodup) :
    (sortStrings l).Nodup :=
  ((List.perm_insertionSort _ l).nodup_iff).mpr h

theorem sortStrings_sorted (l : List String) :
    (sortStrings l).Sorted strLeP :=
  List.sorted_insertionSort _ l

theorem mem_sortStrings {l : List String} {y : String} :
    y ∈ sortStrings l ↔ y ∈ l :=
  (List.perm_insertionSort _ l).mem_iff

namespace ReplicationOverview

/-- The step of the static per-state recommendation loop. -/
def staticsStep (a : List String) (state : String) : List String :=
  match state_recommendations state with
  | some txt => addRec a (staticRecStr state txt)
  | none => a

theorem staticsStep_pres (a : List String) (state : String) {y : String}
    (hy : y ∈ a) : y ∈ staticsStep a state := by
  rw [staticsStep]
  cases state_recommendations state with
  | none => exact hy
  | some txt => exact mem_addRec_of_mem _ hy

theorem staticsStep_nodup (a : List String) (state : String) (h : a.Nodup) :
    (staticsStep a state).Nodup := by
  rw [staticsStep]
  cases state_recommendations state with
  | none => exact h
  | some txt => exact addRec_nodup _ h

theorem statics_fold_hit (l : List String) (state txt : String)
    (hst : state ∈ l) (htxt : state_recommendations state = some txt)
    (a : List String) :
    staticRecStr state txt ∈ l.foldl staticsStep a := by
  induction l generalizing a with
  | nil => cases hst
  | cons x tl ih =>
    rw [List.foldl_cons]
    rcases List.mem_cons.mp hst with hx | htl
    · subst hx
      have hstep : staticsStep a state = addRec a (staticRecStr state txt) := by
        rw [staticsStep, htxt]
      rw [hstep]
      exact foldl_pres_mem _ (fun a2 b2 y hy => staticsStep_pres a2 b2 hy) tl _ _
        (mem_addRec_self a _)
    · exact ih htl _

theorem recsLag_pres_mem (st : AState) {y : String} {recs : List String}
    (h : y ∈ recs) : y ∈ recsLag st recs := by
  rw [recsLag]
  by_cases h1 : st.slots_with_lag ≠ []
  · rw [if_pos h1]
    by_cases h2 : st.slots_with_lag.length ≤ 3
    · rw [if_pos h2]
      exact foldl_pres_mem _ (fun a2 b2 y2 hy => mem_addRec_of_mem _ hy) _ _ _ h
    · rw [if_neg h2]
      exact foldl_pres_mem _ (fun a2 b2 y2 hy => mem_addRec_of_mem _ hy) _ _ _ h
  · rw [if_neg h1]; exact h

theorem recsLag_nodup (st : AState) {recs : List String} (h : recs.Nodup) :
    (recsLag st recs).Nodup := by
  rw [recsLag]
  by_cases h1 : st.slots_with_lag ≠ []
  · rw [if_pos h1]
    by_cases h2 : st.slots_with_lag.length ≤ 3
    · rw [if_pos h2]
      exact foldl_pres_nodup _ (fun a2 b2 ha => addRec_nodup _ ha) _ _ h
    · rw [if_neg h2]
      exact foldl_pres_nodup _ (fun a2 b2 ha => addRec_nodup _ ha) _ _ h
  · rw [if_neg h1]; exact h

theorem recsInact_pres_mem (st : AState) {y : String} {recs : List String}
    (h : y ∈ recs) : y ∈ recsInact st recs := by
  rw [recsInact]
  by_cases h1 : st.inactive_acc ≠ []
  · rw [if_pos h1]
    by_cases h2 : st.inactive_acc.length ≤ 3
    · rw [if_pos h2]
      exact foldl_pres_mem _ (fun a2 b2 y2 hy => mem_addRec_of_mem _ hy) _ _ _ h
    · rw [if_neg h2]
      exact mem_addRec_of_mem _ (mem_addRec_of_mem _ h)
  · rw [if_neg h1]; exact h

theorem recsInact_nodup (st : AState) {recs : List String} (h : recs.Nodup) :
    (recsInact st recs).Nodup := by
  rw [recsInact]
  by_cases h1 : st.inactive_acc ≠ []
  · rw [if_pos h1]
    by_cases h2 : st.inactive_acc.length ≤ 3
    · rw [if_pos h2]
      exact foldl_pres_nodup _ (fun a2 b2 ha => addRec_nodup _ ha) _ _ h
    · rw [if_neg h2]
      exact addRec_nodup _ (addRec_nodup _ h)
  · rw [if_neg h1]; exact h

theorem recsSummary_pres_mem (st : AState) {y : String} {recs : List String}
    (h : y ∈ recs) : y ∈ recsSummary st recs := by
  rw [recsSummary]
  by_cases h1 : st.slots_with_lag ≠ [] ∨ st.inactive_acc ≠ []
  · rw [if_pos h1]
    exact foldl_pres_mem _ (fun a2 b2 y2 hy => staticsStep_pres a2 b2 hy) _ _ _
      (mem_addRec_of_mem _ h)
  · rw [if_neg h1]; exact h

theorem recsSummary_nodup (st : AState) {recs : List String} (h : recs.Nodup) :
    (recsSummary st recs).Nodup := by
  rw [recsSummary]
  by_cases h1 : st.slots_with_lag ≠ [] ∨ st.inactive_acc ≠ []
  · rw [if_pos h1]
    exact foldl_pres_nodup _ (fun a2 b2 ha => staticsStep_nodup a2 b2 ha) _ _
      (addRec_nodup _ h)
  · rw [if_neg h1]; exact h

theorem recsOf_nodup (st : AState) : (recsOf st).Nodup :=
  recsSummary_nodup st (recsInact_nodup st (recsLag_nodup st List.nodup_nil))

end ReplicationOverview

/-- C5 (amended): for every report the recommendation list is
duplicate-free and sorted; with 1-3 lagging slots each lagging slot
contributes its per-slot recommendation; with more than 3 each
connection-state group contributes one grouped recommendation with an
"and N more" truncation; and one static explanatory recommendation is
added per distinct observed connection state that is among the seven
recognised states (an unrecognised state gets none). -/
theorem ReplicationOverview.assess_recommendations_eq
    (r : ReplicationOverview.Report) :
    (ReplicationOverview.assess_replication_health r).recommendations =
      sortStrings (ReplicationOverview.recsOf (ReplicationOverview.preRec r)) := rfl

set_option maxHeartbeats 2000000 in
theorem C5_recommendations :
    (∀ r : ReplicationOverview.Report,
      (ReplicationOverview.assess_replication_health r).recommendations.Nodup
      ∧ (ReplicationOverview.assess_replication_health r).recommendations.Sorted strLeP)
    ∧ (∀ (r : ReplicationOverview.Report) (sn host : String),
        (sn, host) ∈ (ReplicationOverview.preRec r).slots_with_lag →
        (ReplicationOverview.preRec r).slots_with_lag.length ≤ 3 →
        ReplicationOverview.lagRecStr sn host
            (dget (ReplicationOverview.preRec r).slot_states sn "unknown")
          ∈ (ReplicationOverview.assess_replication_health r).recommendations)
    ∧ (∀ (r : ReplicationOverview.Report) (state : String) (slots : List String),
        (state, slots) ∈ ReplicationOverview.byState (ReplicationOverview.preRec r) →
        (ReplicationOverview.preRec r).slots_with_lag.length > 3 →
        ReplicationOverview.groupLagRecStr state slots
          ∈ (ReplicationOverview.assess_replication_health r).recommendations)
    ∧ (∀ (r : ReplicationOverview.Report) (state txt : String),
        state ∈ (ReplicationOverview.preRec r).slot_states.map Prod.snd →
        ReplicationOverview.state_recommendations state = some txt →
        ((ReplicationOverview.preRec r).slots_with_lag ≠ []
          ∨ (ReplicationOverview.preRec r).inactive_acc ≠ []) →
        ReplicationOverview.staticRecStr state txt
          ∈ (ReplicationOverview.assess_replication_health r).recommendations) := by
  refine ⟨?_, ?_, ?_, ?_⟩
  · intro r
    rw [ReplicationOverview.assess_recommendations_eq r]
    exact ⟨sortStrings_nodup (ReplicationOverview.recsOf_nodup _),
      sortStrings_sorted _⟩
  · intro r sn host hmem hlen
    rw [ReplicationOverview.assess_recommendations_eq r]
    rw [mem_sortStrings, ReplicationOverview.recsOf]
    apply ReplicationOverview.recsSummary_pres_mem
    apply ReplicationOverview.recsInact_pres_mem
    rw [ReplicationOverview.recsLag]
    rw [if_pos (List.ne_nil_of_mem hmem), if_pos hlen]
    have h := foldl_addRec_hit
      (fun p : String × String => ReplicationOverview.lagRecStr p.1 p.2
        (dget (ReplicationOverview.preRec r).slot_states p.1 "unknown"))
      (ReplicationOverview.preRec r).slots_with_lag (sn, host) hmem []
    exact h
  · intro r state slots hmem hlen
    rw [ReplicationOverview.assess_recommendations_eq r]
    rw [mem_sortStrings, ReplicationOverview.recsOf]
    apply ReplicationOverview.recsSummary_pres_mem
    apply ReplicationOverview.recsInact_pres_mem
    rw [ReplicationOverview.recsLag]
    have hne : (ReplicationOverview.preRec r).slots_with_lag ≠ [] := by
      intro hnil
      rw [ReplicationOverview.byState, hnil] at hmem
      cases hmem
    rw [if_pos hne, if_neg (by omega)]
    have h := foldl_addRec_hit
      (fun g : String × List String => ReplicationOverview.groupLagRecStr g.1 g.2)
      (ReplicationOverview.byState (ReplicationOverview.preRec r)) (state, slots) hmem []
    exact h
  · intro r state txt hobs htxt hne
    rw [ReplicationOverview.assess_recommendations_eq r]
    rw [mem_sortStrings, ReplicationOverview.recsOf, ReplicationOverview.recsSummary]
    rw [if_pos hne]
    apply ReplicationOverview.statics_fold_hit _ state txt ?_ htxt
    rw [mem_sortStrings]
    exact List.mem_dedup.mpr hobs

/-- One lagging slot in the unrecognised connection state of the C5
counterexample. -/
def siCustom : ReplicationOverview.SlotInfo :=
  { connection_state := some "custom", lag_mb := some 50, lag := "50 MB" }

/-- The C5 counterexample report: four lagging slots, all in connection
state "custom", which is not one of the seven recognised states. -/
def reportC5 : ReplicationOverview.Report :=
  { instance_statuses :=
      [("h1", { replication_slots :=
          [("s1", siCustom), ("s2", siCustom), ("s3", siCustom), ("s4", siCustom)] })] }

/-- C5 counterexample: the state "custom" is observed on four lagging
slots, yet the full recommendation list contains only the grouped entry
and the state summary — no static explanatory recommendation for "custom",
contrary to "one static explanatory recommendation per distinct connection
state observed". -/
theorem C5_cex_unrecognised_state :
    "custom" ∈ (ReplicationOverview.preRec reportC5).slot_states.map Prod.snd
    ∧ (ReplicationOverview.assess_replication_health reportC5).recommendations =
        ["Check for blocking transactions on subscribers in custom state: s1, s2, s3 and 1 more",
         "Connection state summary: 4 slots in \x27custom\x27 state"] := by
  refine ⟨by decide, by decide⟩

/-- Witness for C5: the per-slot conjunct at the C1 scenario (one lagging
slot), the grouped conjunct at the C5 counterexample report (four lagging
slots), and the static conjunct at the C1 scenario (state "streaming"). -/
theorem C5_witness :
    (("sub_b_slot", "B") ∈ (ReplicationOverview.preRec scenarioC1).slots_with_lag
      ∧ (ReplicationOverview.preRec scenarioC1).slots_with_lag.length ≤ 3
      ∧ ReplicationOverview.lagRecStr "sub_b_slot" "B"
          (dget (ReplicationOverview.preRec scenarioC1).slot_states "sub_b_slot" "unknown")
          ∈ (ReplicationOverview.assess_replication_health scenarioC1).recommendations)
    ∧ (("custom", ["s1", "s2", "s3", "s4"])
          ∈ ReplicationOverview.byState (ReplicationOverview.preRec reportC5)
      ∧ (ReplicationOverview.preRec reportC5).slots_with_lag.length > 3
      ∧ ReplicationOverview.groupLagRecStr "custom" ["s1", "s2", "s3", "s4"]
          ∈ (ReplicationOverview.assess_replication_health reportC5).recommendations)
    ∧ ("streaming" ∈ (ReplicationOverview.preRec scenarioC1).slot_states.map Prod.snd
      ∧ ReplicationOverview.state_recommendations "streaming" =
          some "Streaming is the normal operating state. High lag in this state may indicate insufficient resources on subscribers."
      ∧ ReplicationOverview.staticRecStr "streaming"
          "Streaming is the normal operating state. High lag in this state may indicate insufficient resources on subscribers."
          ∈ (ReplicationOverview.assess_replication_health scenarioC1).recommendations) :=
  ⟨⟨by decide, by decide,
    C5_recommendations.2.1 scenarioC1 "sub_b_slot" "B" (by decide) (by decide)⟩,
   ⟨by decide, by decide,
    C5_recommendations.2.2.1 reportC5 "custom" ["s1", "s2", "s3", "s4"] (by decide)
      (by decide)⟩,
   ⟨by decide, by decide,
    C5_recommendations.2.2.2 scenarioC1 "streaming"
      "Streaming is the normal operating state. High lag in this state may indicate insufficient resources on subscribers."
      (by decide) (by decide) (by decide)⟩⟩

namespace RdsReplicationOverview

/-- The per-host status fields read by the rds
`assess_replication_health` (`rds_replication_overview.py`): truthiness of
`inactive_replication.inactive_slots`, truthiness of `schema_differences`,
and presence of the `error` key. -/
structure RdsStatus where
  inactive_slots : List String := []
  schema_differences : List String := []
  error : Option String := none
deriving DecidableEq, Repr

/-- The part of the report the rds assessor consumes. -/
structure RdsReport where
  replication_lag : List (String × Option Int) := []
  instance_statuses : List (String × RdsStatus) := []
deriving DecidableEq, Repr

/-- The rds health dict: overall severity and issue list (this version has
no recommendations). -/
structure RdsHealth where
  overall : Sev
  issues : List String
deriving DecidableEq, Repr

/-- One link of the replication-lag loop (lines 19-22):
`lag is not None and lag > 1000000` appends an issue and sets WARNING
unconditionally. -/
def lagStep (st : Sev × List String) (p : String × Option Int) :
    Sev × List String :=
  match p.2 with
  | some v =>
    if v > 1000000 then
      (Sev.WARNING,
        st.2 ++ ["High replication lag in " ++ p.1 ++ ": " ++ toString v ++ " bytes"])
    else st
  | none => st

/-- One host of the per-host loop (lines 24-35).  Each branch assigns the
overall severity unconditionally, so a later host's WARNING overwrites an
earlier host's CRITICAL. -/
def hostStep (st : Sev × List String) (hp : String × RdsStatus) :
    Sev × List String :=
  let st1 := if hp.2.inactive_slots ≠ [] then
      (Sev.WARNING, st.2 ++ ["Inactive replication slots on " ++ hp.1])
    else st
  let st2 := if hp.2.schema_differences ≠ [] then
      (Sev.WARNING, st1.2 ++ ["Schema differences detected on " ++ hp.1])
    else st1
  if hp.2.error.isSome then
    (Sev.CRITICAL, st2.2 ++ ["Error on " ++ hp.1 ++ ": " ++ hp.2.error.getD ""])
  else st2

/-- The state after the two issue loops of the rds assessor. -/
def loopSt (r : RdsReport) : Sev × List String :=
  r.instance_statuses.foldl hostStep (r.replication_lag.foldl lagStep (Sev.HEALTHY, []))

/-- `assess_replication_health` from `rds_replication_overview.py`
(lines 13-40): the lag loop, the per-host loop, then the escalation to
CRITICAL when more than 5 issues accumulated. -/
def assess_replication_health (r : RdsReport) : RdsHealth :=
  { overall := if (loopSt r).2.length > 5 then Sev.CRITICAL else (loopSt r).1
    issues := (loopSt r).2 }

end RdsReplicationOverview

namespace ReplicationOverview

/-- The decoded-slot fields merged into a slot dict.  The decoded keys
(`subscription_oid`, `subscription_name`, `table_oid`, `table_name`,
`orphaned`) are disjoint from every key the health assessor reads, so the
`slot_info.update(...)` merge cannot change any field modelled in
`SlotInfo`; the merge is therefore not re-modelled inside `SlotInfo`. -/
structure InactiveResult where
  inactive_slots : List InactiveEntry := []
  disabled_subscriptions : List (String × Option String) := []
deriving DecidableEq, Repr

/-- One row of the replication-slot query of `_get_replication_slots`,
restricted to the columns that reach the fields modelled in `SlotInfo`
(the remaining columns are carried through the dict unchanged and are
never read by the functions modelled here). -/
structure SlotRow where
  slot_name : String
  lag_bytes : Option ℚ := none
  active : Option Bool := none
  lag_pretty : String := ""
  connection_state : Option String := none
deriving DecidableEq, Repr

/-- The status dict built by `process_host` (lines 452-480): every field
is `Option`al because a fresh `{}` has none of the keys; each query
function fills its own keys, with its own fallback on failure. -/
structure PHStatus where
  error : Option String := none
  current_lsn : Option String := none
  wal_generation_rate_bytes_per_sec : Option ℚ := none
  wal_generation_rate_mb_per_sec : Option ℚ := none
  replication_slots : Option (List (String × SlotInfo)) := none
  lagging_slots : Option (List String) := none
  inactive_replication : Option (Except String InactiveResult) := none
deriving Repr

/-- The query outcomes one `process_host` call can observe.  `connQ` is
`get_db_connection` (+ `autocommit`), `decodeQ` the unguarded
`decode_temporal_slots(conn)` call; the five guarded query functions each
have their own field. -/
structure ProbeEnv where
  connQ : Except String Unit := .ok ()
  decodeQ : Except String (List (String × DecodedSlot)) := .ok []
  slotsQ : Except String (List SlotRow) := .ok []
  lsnQ : Except String String := .ok ""
  walQ : Except String ℚ := .ok 0
  subownQ : Except String (List (String × String)) := .ok []
  inactQ : Except String InactiveResult := .ok {}

/-- `_get_current_lsn` (lines 319-326): fallback value `"unknown"`. -/
def _get_current_lsn (env : ProbeEnv) (st : PHStatus) : PHStatus :=
  match env.lsnQ with
  | .ok v => { st with current_lsn := some v }
  | .error _ => { st with current_lsn := some "unknown" }

/-- `_get_wal_generation_rate` (lines 328-343): fallback value `0`. -/
def _get_wal_generation_rate (env : ProbeEnv) (st : PHStatus) : PHStatus :=
  match env.walQ with
  | .ok diff =>
    { st with wal_generation_rate_bytes_per_sec := some diff,
              wal_generation_rate_mb_per_sec := some (diff / (1024 * 1024)) }
  | .error _ =>
    { st with wal_generation_rate_bytes_per_sec := some 0,
              wal_generation_rate_mb_per_sec := some 0 }

/-- `_get_replication_slots` (lines 345-389): build the slot dict (keyed
by `slot_name`, computing `lag_mb` and `lag` when `lag_bytes` is not NULL)
and the `lagging_slots` list; on failure both are set empty. -/
def _get_replication_slots (env : ProbeEnv)
    (_decoded : List (String × DecodedSlot)) (st : PHStatus) : PHStatus :=
  match env.slotsQ with
  | .error _ => { st with replication_slots := some [], lagging_slots := some [] }
  | .ok rows =>
    let built := rows.foldl
      (fun acc row =>
        let si : SlotInfo :=
          { connection_state := row.connection_state
            active := row.active
            lag_mb := row.lag_bytes.map (fun b => b / (1024 * 1024))
            lag := if row.lag_bytes.isSome then row.lag_pretty else "" }
        (alistSet acc.1 row.slot_name si,
         if si.lag_mb.getD 0 > 1 then acc.2 ++ [row.slot_name] else acc.2))
      (([] : List (String × SlotInfo)), ([] : List String))
    { st with replication_slots := some built.1, lagging_slots := some built.2 }

/-- `_get_subscription_ownership` (lines 391-408): set `owner` and
`owner_source` on every slot whose name is a subscription name; a failure
(including the `KeyError` when `replication_slots` is absent) leaves the
status unchanged. -/
def _get_subscription_ownership (env : ProbeEnv) (st : PHStatus) : PHStatus :=
  match env.subownQ with
  | .error _ => st
  | .ok owners =>
    { st with replication_slots := st.replication_slots.map (fun slots =>
        slots.map (fun p =>
          match alistGet? owners p.1 with
          | some o =>
            (p.1, { p.2 with owner := some o, owner_source := some "subscription_owner" })
          | none => p)) }

/-- `_check_inactive_replication` (lines 410-450): on failure the field
carries the error marker dict. -/
def _check_inactive_replication (env : ProbeEnv) (st : PHStatus) : PHStatus :=
  match env.inactQ with
  | .ok r => { st with inactive_replication := some (.ok r) }
  | .error e => { st with inactive_replication := some (.error e) }

/-- `process_host` from `reptool/replication_overview.py` (lines 452-480):
connect, decode the temporal slots, then run the five fault-isolated query
functions in source order; any exception escaping the `try` block (the
connection or the unguarded decode call) yields the fresh error-marker
dict `{"error": str(e)}`. -/
def process_host (env : ProbeEnv) (host : String) : String × PHStatus :=
  match env.connQ with
  | .error e => (host, { error := some e })
  | .ok _ =>
    match env.decodeQ with
    | .error e => (host, { error := some e })
    | .ok dec =>
      let st : PHStatus := {}
      let st := _get_replication_slots env dec st
      let st := _get_current_lsn env st
      let st := _get_wal_generation_rate env st
      let st := _get_subscription_ownership env st
      let st := _check_inactive_replication env st
      (host, st)

end ReplicationOverview

/-- The reptool 4-inactive-slot scenario report: four hosts, each with one
inactive slot and nothing else. -/
def reportInact4 : ReplicationOverview.Report :=
  { instance_statuses :=
      [("h1", { inactive_slots := [.dictE "s1" "1 GB"] }),
       ("h2", { inactive_slots := [.dictE "s2" "2 GB"] }),
       ("h3", { inactive_slots := [.dictE "s3" "3 GB"] }),
       ("h4", { inactive_slots := [.dictE "s4" "4 GB"] })] }

/-- C3 (amended): the rds assessor escalates to CRITICAL whenever its
issue list holds more than 5 distinct issues; the reptool assessor has no
issue-count escalation at all (the counterexample); a reptool report with
exactly 4 inactive-slot issues assesses WARNING with a grouped
recommendation summary instead of 4 per-slot lines. -/
theorem C3_issue_count_escalation :
    (∀ r : RdsReplicationOverview.RdsReport,
      5 < (RdsReplicationOverview.assess_replication_health r).issues.dedup.length →
      (RdsReplicationOverview.assess_replication_health r).overall = Sev.CRITICAL)
    ∧ (ReplicationOverview.assess_replication_health reportInact4).overall = Sev.WARNING
    ∧ (ReplicationOverview.assess_replication_health reportInact4).issues.length = 4
    ∧ (ReplicationOverview.assess_replication_health reportInact4).recommendations =
        ["Check if subscribers are down or reactivate slots if needed",
         "Connection state summary: ",
         "Inactive replication slots detected: s1, s2, s3 and 1 more"] := by
  refine ⟨?_, by decide, by decide, by decide⟩
  intro r h
  have hd : (RdsReplicationOverview.loopSt r).2.dedup.length
      ≤ (RdsReplicationOverview.loopSt r).2.length :=
    List.Sublist.length_le (List.dedup_sublist _)
  have h5 : 5 < (RdsReplicationOverview.loopSt r).2.dedup.length := h
  have hlen : (RdsReplicationOverview.loopSt r).2.length > 5 := by omega
  show (if (RdsReplicationOverview.loopSt r).2.length > 5 then Sev.CRITICAL
    else (RdsReplicationOverview.loopSt r).1) = Sev.CRITICAL
  rw [if_pos hlen]

/-- An rds report with six distinct issues (six hosts with inactive
slots), used as the C3 witness. -/
def rdsReport6 : RdsReplicationOverview.RdsReport :=
  { instance_statuses :=
      [("h1", { inactive_slots := ["s"] }), ("h2", { inactive_slots := ["s"] }),
       ("h3", { inactive_slots := ["s"] }), ("h4", { inactive_slots := ["s"] }),
       ("h5", { inactive_slots := ["s"] }), ("h6", { inactive_slots := ["s"] })] }

/-- Witness for C3: six distinct issues escalate the rds assessor to
CRITICAL. -/
theorem C3_witness :
    5 < (RdsReplicationOverview.assess_replication_health rdsReport6).issues.dedup.length
    ∧ (RdsReplicationOverview.assess_replication_health rdsReport6).overall
        = Sev.CRITICAL :=
  ⟨by decide, C3_issue_count_escalation.1 rdsReport6 (by decide)⟩

/-- A reptool report with six distinct inactive-slot issues on one host. -/
def reportInact6 : ReplicationOverview.Report :=
  { instance_statuses :=
      [("h1", { inactive_slots :=
          [.dictE "s1" "1 GB", .dictE "s2" "2 GB", .dictE "s3" "3 GB",
           .dictE "s4" "4 GB", .dictE "s5" "5 GB", .dictE "s6" "6 GB"] })] }

/-- C3 counterexample: the reptool assessor leaves a report with six
distinct issues at WARNING — it implements no issue-count escalation. -/
theorem C3_cex_reptool_no_escalation :
    (ReplicationOverview.assess_replication_health reportInact6).issues.dedup.length = 6
    ∧ (ReplicationOverview.assess_replication_health reportInact6).overall = Sev.WARNING
    ∧ (ReplicationOverview.assess_replication_health reportInact6).overall
        ≠ Sev.CRITICAL := by
  refine ⟨by decide, by decide, by decide⟩

/-- The probe environment of the C2 failing input: the connection to the
host raises. -/
def envC2 : ReplicationOverview.ProbeEnv := { connQ := .error "boom" }

/-- The rds report of the C2 failing input: the failed host (probed to
exactly the error marker) followed by a healthy host with one inactive
slot. -/
def rdsReportC2 : RdsReplicationOverview.RdsReport :=
  { instance_statuses :=
      [("badhost", { error := some "boom" }),
       ("okhost", { inactive_slots := ["s1"] })] }

/-- C2 evaluated at the failing input: the probe of `badhost` returns
exactly the error-marker dict and the rds assessor gives it exactly one
"Error on ..." issue — but the overall severity ends WARNING, not
CRITICAL: the later host's unconditional WARNING assignment overwrites the
CRITICAL set for the error host (the spec's no-downgrade rule is violated
by this code). -/
theorem C2_error_host_eval :
    ReplicationOverview.process_host envC2 "badhost"
        = ("badhost", { error := some "boom" })
    ∧ (RdsReplicationOverview.assess_replication_health rdsReportC2).issues =
        ["Error on badhost: boom", "Inactive replication slots on okhost"]
    ∧ ((RdsReplicationOverview.assess_replication_health rdsReportC2).issues.filter
        (fun s => pyStartsWith "Error on" s)).length = 1
    ∧ (RdsReplicationOverview.assess_replication_health rdsReportC2).overall
        = Sev.WARNING := by
  refine ⟨rfl, by decide, by decide, by decide⟩

theorem nodup_length_le {α : Type} [DecidableEq α] {l u : List α}
    (hn : l.Nodup) (hs : l ⊆ u) : l.length ≤ u.length := by
  have h1 : l.toFinset.card = l.length := List.toFinset_card_of_nodup hn
  have h2 : l.toFinset ⊆ u.toFinset :=
    fun x hx => List.mem_toFinset.mpr (hs (List.mem_toFinset.mp hx))
  have h3 : l.toFinset.card ≤ u.toFinset.card := Finset.card_le_card h2
  have h4 : u.toFinset.card ≤ u.length := List.toFinset_card_le u
  omega

theorem alistGet?_push {κ ν : Type} [DecidableEq κ] (m : List (κ × List ν))
    (k k' : κ) (v : ν) :
    (alistGet? (alistPush m k v) k').getD [] =
      if k' = k then (alistGet? m k').getD [] ++ [v]
      else (alistGet? m k').getD [] := by
  induction m with
  | nil =>
    by_cases h : k' = k
    · subst h
      simp [alistPush, alistGet?]
    · have h2 : ¬(k = k') := fun hh => h hh.symm
      rw [if_neg h]
      simp [alistPush, alistGet?, h2]
  | cons p tl ih =>
    rw [alistPush]
    by_cases hp : p.1 = k
    · rw [if_pos hp]
      by_cases h : k' = k
      · have hp2 : p.1 = k' := by rw [hp, h]
        rw [if_pos h]
        simp [alistGet?, hp2]
      · have hp2 : ¬(p.1 = k') := by rw [hp]; exact fun hh => h hh.symm
        rw [if_neg h]
        simp [alistGet?, hp2]
    · rw [if_neg hp]
      by_cases hp2 : p.1 = k'
      · have h : ¬(k' = k) := fun hh => hp (hp2.trans hh)
        rw [if_neg h]
        simp [alistGet?, hp2]
      · simp only [alistGet?, if_neg hp2]
        exact ih

namespace ReplicationOverview

/-- A node of the discovery walk: a Python `str` host, or the Python
`None` that `parse_conninfo` yields when a descriptor lacks `host=`
(`dfs(None)` is then a real call, which fails to connect). -/
abbrev Node := Option String

/-- The catalog environment discovery runs against: per node, the
`pg_subscription` rows `(subname, subconninfo)`, the logical-slot rows
`(slot_name, active)`, and whether connecting/querying raises
`psycopg2.Error`. -/
structure DiscEnv where
  subs : Node → List (String × String)
  slots : Node → List (String × Bool)
  fail : Node → Bool

/-- The `topology` dict of `discover_replication_topology`. -/
structure Topology where
  links : List (Node × List Node) := []
  logical_publishers : List Node := []
  logical_subscribers : List Node := []
deriving DecidableEq, Repr

/-- The mutable state of the walk: the `visited` set, the `link_pairs`
set, and the topology under construction. -/
structure DiscState where
  visited : List Node := []
  link_pairs : List (Node × Node) := []
  topo : Topology := {}
deriving DecidableEq, Repr

/-- Host component of a parsed descriptor; `parse_conninfo_total` shows
the parse cannot raise, justifying the default. -/
def parseHost (conninfo : String) : Node :=
  ((parse_conninfo conninfo).getD (none, none, none)).1

/-- Record one replication link (lines 240-244): the pair enters
`link_pairs` and the `links` dict only when unseen. -/
def recordLink (st : DiscState) (pub host : Node) : DiscState :=
  if (pub, host) ∈ st.link_pairs then st
  else
    { st with link_pairs := st.link_pairs ++ [(pub, host)],
              topo := { st.topo with links := alistPush st.topo.links pub host } }

/-- Lines 233-234: mark the host a logical subscriber. -/
def markSubscriber (env : DiscEnv) (host : Node) (st : DiscState) : DiscState :=
  if env.subs host ≠ [] ∧ host ∉ st.topo.logical_subscribers then
    { st with topo := { st.topo with
        logical_subscribers := st.topo.logical_subscribers ++ [host] } }
  else st

/-- Lines 257-259: mark the host a logical publisher. -/
def markPublisher (env : DiscEnv) (host : Node) (st : DiscState) : DiscState :=
  if env.slots host ≠ [] ∧ host ∉ st.topo.logical_publishers then
    { st with topo := { st.topo with
        logical_publishers := st.topo.logical_publishers ++ [host] } }
  else st

/-- The recursive `dfs` of `discover_replication_topology`
(`reptool/replication_overview.py`, lines 210-267), fuel-indexed: `none`
models running out of fuel, which `dfsAux_spec` shows cannot happen with
fuel `|universe| + 1`.  The `reuse_connections` cache only reuses sockets
and has no semantic effect; it is not modelled. -/
def dfsAux (env : DiscEnv) : Nat → Node → DiscState → Option DiscState
  | 0, _, _ => none
  | fuel + 1, host, st =>
    if host ∈ st.visited then some st
    else
      let st1 := { st with visited := host :: st.visited }
      if env.fail host then some st1
      else
        let st2 := markSubscriber env host st1
        match (env.subs host).foldlM
            (fun st sc =>
              dfsAux env fuel (parseHost sc.2) (recordLink st (parseHost sc.2) host))
            st2 with
        | none => none
        | some st3 => some (markPublisher env host st3)

/-- `discover_replication_topology` (lines 202-273) with explicit fuel. -/
def discover_replication_topology (env : DiscEnv) (fuel : Nat)
    (start_host : String) : Option DiscState :=
  dfsAux env fuel (some start_host) {}

/-- Link bookkeeping invariant: `link_pairs` is duplicate-free and in
bijection with the buckets of the `links` dict; every recorded pair was
recorded while visiting its subscriber, from one of that subscriber's own
subscriptions. -/
def LinkInv (env : DiscEnv) (st : DiscState) : Prop :=
  st.link_pairs.Nodup
  ∧ (∀ p s : Node, (p, s) ∈ st.link_pairs ↔ s ∈ (alistGet? st.topo.links p).getD [])
  ∧ (∀ p : Node, ((alistGet? st.topo.links p).getD []).Nodup)
  ∧ (∀ pr ∈ st.link_pairs,
      pr.2 ∈ st.visited ∧ ∃ sc ∈ env.subs pr.2, parseHost sc.2 = pr.1)

/-- Full walk invariant over a finite universe. -/
def Inv (env : DiscEnv) (univ : List Node) (st : DiscState) : Prop :=
  st.visited.Nodup ∧ st.visited ⊆ univ ∧ LinkInv env st

theorem Inv_congr {env : DiscEnv} {univ : List Node} {st st2 : DiscState}
    (hv : st2.visited = st.visited) (hp : st2.link_pairs = st.link_pairs)
    (hl : st2.topo.links = st.topo.links) (h : Inv env univ st) :
    Inv env univ st2 := by
  unfold Inv LinkInv at h ⊢
  rw [hv, hp, hl]
  exact h

theorem markSubscriber_fields (env : DiscEnv) (host : Node) (st : DiscState) :
    (markSubscriber env host st).visited = st.visited
    ∧ (markSubscriber env host st).link_pairs = st.link_pairs
    ∧ (markSubscriber env host st).topo.links = st.topo.links := by
  rw [markSubscriber]
  split_ifs <;> exact ⟨rfl, rfl, rfl⟩

theorem markPublisher_fields (env : DiscEnv) (host : Node) (st : DiscState) :
    (markPublisher env host st).visited = st.visited
    ∧ (markPublisher env host st).link_pairs = st.link_pairs
    ∧ (markPublisher env host st).topo.links = st.topo.links := by
  rw [markPublisher]
  split_ifs <;> exact ⟨rfl, rfl, rfl⟩

theorem recordLink_inv {env : DiscEnv} {univ : List Node} {st : DiscState}
    {pub host : Node} (hinv : Inv env univ st) (hhost : host ∈ st.visited)
    (hsc : ∃ sc ∈ env.subs host, parseHost sc.2 = pub) :
    Inv env univ (recordLink st pub host)
    ∧ (recordLink st pub host).visited = st.visited := by
  rw [recordLink]
  by_cases hmem : (pub, host) ∈ st.link_pairs
  · rw [if_pos hmem]; exact ⟨hinv, rfl⟩
  · rw [if_neg hmem]
    obtain ⟨hnd, hsub, hlp_nd, hiff, hbk_nd, hprov⟩ :
        st.visited.Nodup ∧ st.visited ⊆ univ ∧ st.link_pairs.Nodup
        ∧ (∀ p s : Node, (p, s) ∈ st.link_pairs ↔
            s ∈ (alistGet? st.topo.links p).getD [])
        ∧ (∀ p : Node, ((alistGet? st.topo.links p).getD []).Nodup)
        ∧ (∀ pr ∈ st.link_pairs,
            pr.2 ∈ st.visited ∧ ∃ sc ∈ env.subs pr.2, parseHost sc.2 = pr.1) :=
      ⟨hinv.1, hinv.2.1, hinv.2.2.1, hinv.2.2.2.1, hinv.2.2.2.2.1, hinv.2.2.2.2.2⟩
    refine ⟨⟨hnd, hsub, ?_, ?_, ?_, ?_⟩, rfl⟩
    · rw [List.nodup_append]
      exact ⟨hlp_nd, List.nodup_singleton _,
        fun a ha hax => hmem ((List.mem_singleton.mp hax) ▸ ha)⟩
    · intro p s
      show (p, s) ∈ st.link_pairs ++ [(pub, host)] ↔
        s ∈ (alistGet? (alistPush st.topo.links pub host) p).getD []
      rw [alistGet?_push, List.mem_append, List.mem_singleton]
      by_cases hpp : p = pub
      · subst hpp
        rw [if_pos rfl, List.mem_append, List.mem_singleton]
        constructor
        · intro h
          rcases h with h | h
          · exact Or.inl ((hiff p s).mp h)
          · exact Or.inr (by rw [(Prod.mk.injEq _ _ _ _).mp h |>.2])
        · intro h
          rcases h with h | h
          · exact Or.inl ((hiff p s).mpr h)
          · exact Or.inr (by rw [h])
      · rw [if_neg hpp]
        constructor
        · intro h
          rcases h with h | h
          · exact (hiff p s).mp h
          · exact absurd ((Prod.mk.injEq _ _ _ _).mp h).1 hpp
        · intro h
          exact Or.inl ((hiff p s).mpr h)
    · intro p
      show ((alistGet? (alistPush st.topo.links pub host) p).getD []).Nodup
      rw [alistGet?_push]
      by_cases hpp : p = pub
      · subst hpp
        rw [if_pos rfl, List.nodup_append]
        refine ⟨hbk_nd p, List.nodup_singleton _, ?_⟩
        intro a ha hax
        rw [List.mem_singleton] at hax
        subst hax
        exact hmem ((hiff p a).mpr ha)
      · rw [if_neg hpp]
        exact hbk_nd p
    · intro pr hpr
      rw [List.mem_append, List.mem_singleton] at hpr
      rcases hpr with hpr | hpr
      · exact hprov pr hpr
      · subst hpr
        exact ⟨hhost, hsc⟩

end ReplicationOverview

namespace ReplicationOverview

theorem subsFold_spec (env : DiscEnv) (univ : List Node) (fuel : Nat)
    (IH : ∀ (h2 : Node) (st : DiscState), h2 ∈ univ → Inv env univ st →
      univ.length < fuel + st.visited.length →
      ∃ st2, dfsAux env fuel h2 st = some st2 ∧ st.visited <:+ st2.visited
        ∧ Inv env univ st2 ∧ h2 ∈ st2.visited) :
    ∀ (l : List (String × String)) (host : Node) (st : DiscState),
      (∀ sc ∈ l, sc ∈ env.subs host) →
      (∀ sc ∈ l, parseHost sc.2 ∈ univ) →
      host ∈ st.visited → Inv env univ st →
      univ.length < fuel + st.visited.length →
      ∃ st2, l.foldlM
          (fun st sc =>
            dfsAux env fuel (parseHost sc.2) (recordLink st (parseHost sc.2) host))
          st = some st2
        ∧ st.visited <:+ st2.visited ∧ Inv env univ st2
        ∧ univ.length < fuel + st2.visited.length := by
  intro l
  induction l with
  | nil =>
    intro host st _ _ _ hinv hb
    exact ⟨st, rfl, List.suffix_refl _, hinv, hb⟩
  | cons sc tl ih =>
    intro host st hsub hcl hhost hinv hb
    rw [List.foldlM_cons]
    obtain ⟨hinv1, hvis1⟩ :=
      recordLink_inv hinv hhost ⟨sc, hsub sc (List.mem_cons_self _ _), rfl⟩
    have hb1 : univ.length <
        fuel + (recordLink st (parseHost sc.2) host).visited.length := by
      rw [hvis1]; exact hb
    obtain ⟨st2, hdfs, hsuf, hinv2, _⟩ :=
      IH (parseHost sc.2) _ (hcl sc (List.mem_cons_self _ _)) hinv1 hb1
    rw [hdfs]
    have hsuf1 : st.visited <:+ st2.visited := hvis1 ▸ hsuf
    have hhost2 : host ∈ st2.visited := hsuf1.subset hhost
    have hb2 : univ.length < fuel + st2.visited.length :=
      Nat.lt_of_lt_of_le hb (Nat.add_le_add_left hsuf1.length_le fuel)
    obtain ⟨st3, hfold, hsuf3, hinv3, hb3⟩ :=
      ih host st2 (fun x hx => hsub x (List.mem_cons_of_mem _ hx))
        (fun x hx => hcl x (List.mem_cons_of_mem _ hx)) hhost2 hinv2 hb2
    exact ⟨st3, hfold, hsuf1.trans hsuf3, hinv3, hb3⟩

theorem dfsAux_spec (env : DiscEnv) (univ : List Node)
    (hclosed : ∀ h ∈ univ, ∀ sc ∈ env.subs h, parseHost sc.2 ∈ univ) :
    ∀ (fuel : Nat) (host : Node) (st : DiscState), host ∈ univ →
      Inv env univ st → univ.length < fuel + st.visited.length →
      ∃ st2, dfsAux env fuel host st = some st2 ∧ st.visited <:+ st2.visited
        ∧ Inv env univ st2 ∧ host ∈ st2.visited := by
  intro fuel
  induction fuel with
  | zero =>
    intro host st _ hinv hb
    exfalso
    have := nodup_length_le hinv.1 hinv.2.1
    omega
  | succ fuel IH =>
    intro host st hu hinv hb
    simp only [dfsAux]
    by_cases hv : host ∈ st.visited
    · rw [if_pos hv]
      exact ⟨st, rfl, List.suffix_refl _, hinv, hv⟩
    · rw [if_neg hv]
      have hinv1 : Inv env univ { st with visited := host :: st.visited } := by
        refine ⟨List.nodup_cons.mpr ⟨hv, hinv.1⟩, ?_, ?_⟩
        · intro x hx
          rcases List.mem_cons.mp hx with hx | hx
          · exact hx ▸ hu
          · exact hinv.2.1 hx
        · obtain ⟨h1, h2, h3, h4⟩ := hinv.2.2
          exact ⟨h1, h2, h3,
            fun pr hpr => ⟨List.mem_cons_of_mem _ (h4 pr hpr).1, (h4 pr hpr).2⟩⟩
      by_cases hf : env.fail host
      · rw [if_pos hf]
        exact ⟨_, rfl, List.suffix_cons host st.visited, hinv1,
          List.mem_cons_self _ _⟩
      · rw [if_neg hf]
        obtain ⟨hmv, hmp, hml⟩ :=
          markSubscriber_fields env host { st with visited := host :: st.visited }
        have hinv2 : Inv env univ
            (markSubscriber env host { st with visited := host :: st.visited }) :=
          Inv_congr hmv hmp hml hinv1
        have hhost2 : host ∈
            (markSubscriber env host { st with visited := host :: st.visited }).visited := by
          rw [hmv]; exact List.mem_cons_self _ _
        have hb2 : univ.length < fuel +
            (markSubscriber env host { st with visited := host :: st.visited }).visited.length := by
          rw [hmv]
          simp only [List.length_cons]
          omega
        obtain ⟨st3, hfold, hsuf3, hinv3, _⟩ :=
          subsFold_spec env univ fuel IH (env.subs host) host _
            (fun _ hx => hx) (hclosed host hu) hhost2 hinv2 hb2
        rw [hfold]
        obtain ⟨hpv, hpp, hpl⟩ := markPublisher_fields env host st3
        refine ⟨markPublisher env host st3, rfl, ?_, Inv_congr hpv hpp hpl hinv3, ?_⟩
        · rw [hpv]
          have hsuf3b : host :: st.visited <:+ st3.visited := by
            rw [hmv] at hsuf3
            exact hsuf3
          exact (List.suffix_cons host st.visited).trans hsuf3b
        · rw [hpv]
          exact hsuf3.subset hhost2

end ReplicationOverview

theorem ReplicationOverview.Inv_init (env : ReplicationOverview.DiscEnv)
    (univ : List ReplicationOverview.Node) :
    ReplicationOverview.Inv env univ {} := by
  refine ⟨List.nodup_nil, fun x hx => absurd hx (List.not_mem_nil x), List.nodup_nil,
    ?_, ?_, ?_⟩
  · intro p s
    simp [alistGet?]
  · intro p
    simp [alistGet?]
  · intro pr hpr
    cases hpr

/-- C6: over any finite closed host universe — cycles included — the
discovery walk with fuel `|universe| + 1` terminates with a result, its
visited set is duplicate-free (every host entered exactly once, inserted
before recursing) and contains the seed, and calling `dfs` again on any
visited host is an immediate no-op (a visited host is never re-entered). -/
theorem C6_dfs_terminates_visits_once :
    ∀ (env : ReplicationOverview.DiscEnv) (univ : List ReplicationOverview.Node)
      (seed : String),
      (∀ h ∈ univ, ∀ sc ∈ env.subs h, ReplicationOverview.parseHost sc.2 ∈ univ) →
      some seed ∈ univ →
      (ReplicationOverview.discover_replication_topology env (univ.length + 1) seed).isSome
      ∧ (∀ st, ReplicationOverview.discover_replication_topology env (univ.length + 1) seed
            = some st →
          st.visited.Nodup ∧ some seed ∈ st.visited
          ∧ (∀ h ∈ st.visited, ∀ fuel : Nat,
              ReplicationOverview.dfsAux env (fuel + 1) h st = some st)) := by
  intro env univ seed hclosed hseed
  obtain ⟨st2, heq, _, hinv2, hmem2⟩ :=
    ReplicationOverview.dfsAux_spec env univ hclosed (univ.length + 1) (some seed) {}
      hseed (ReplicationOverview.Inv_init env univ) (by simp)
  constructor
  · rw [ReplicationOverview.discover_replication_topology, heq]
    rfl
  · intro st hst
    rw [ReplicationOverview.discover_replication_topology] at hst
    rw [heq, Option.some_inj] at hst
    subst hst
    refine ⟨hinv2.1, hmem2, ?_⟩
    intro h hh fuel
    simp only [ReplicationOverview.dfsAux]
    rw [if_pos hh]

/-- Witness environment for C6 and C9: hosts A and B subscribe to each
other — a two-cycle — and both own a logical slot. -/
def envW : ReplicationOverview.DiscEnv :=
  { subs := fun h => if h = some "A" then [("sub_ab", "host=B user=u password=p")]
      else if h = some "B" then [("sub_ba", "host=A user=u password=p")] else []
    slots := fun h => if h = some "A" || h = some "B" then [("s", true)] else []
    fail := fun _ => false }

/-- The universe of `envW`. -/
def univW : List ReplicationOverview.Node := [some "A", some "B"]

/-- The state `envW` discovery reaches from seed A. -/
def stW : ReplicationOverview.DiscState :=
  { visited := [some "B", some "A"]
    link_pairs := [(some "B", some "A"), (some "A", some "B")]
    topo := { links := [(some "B", [some "A"]), (some "A", [some "B"])]
              logical_publishers := [some "B", some "A"]
              logical_subscribers := [some "A", some "B"] } }

/-- Witness for C6 at the cyclic two-host environment `envW`. -/
theorem C6_witness :
    (ReplicationOverview.discover_replication_topology envW 3 "A").isSome
    ∧ stW.visited.Nodup
    ∧ some "A" ∈ stW.visited
    ∧ ReplicationOverview.dfsAux envW 1 (some "B") stW = some stW :=
  ⟨(C6_dfs_terminates_visits_once envW univW "A" (by decide) (by decide)).1,
   ((C6_dfs_terminates_visits_once envW univW "A" (by decide) (by decide)).2 stW
      (by decide)).1,
   ((C6_dfs_terminates_visits_once envW univW "A" (by decide) (by decide)).2 stW
      (by decide)).2.1,
   ((C6_dfs_terminates_visits_once envW univW "A" (by decide) (by decide)).2 stW
      (by decide)).2.2 (some "B") (by decide) 0⟩

/-- C9 (amended): in the topology discovered by
`replication_overview.py`'s `dfs`, every ordered publisher→subscriber pair
is recorded at most once (the `link_pairs` set guard), and every recorded
link points from the host parsed out of a subscriber's own subscription to
that subscriber — links are never inferred in the reverse direction.  (The
`reptool/rds_replication_overview.py` variant violates both parts; see the
counterexample.) -/
theorem C9_link_set_semantics :
    ∀ (env : ReplicationOverview.DiscEnv) (univ : List ReplicationOverview.Node)
      (seed : String) (st : ReplicationOverview.DiscState),
      (∀ h ∈ univ, ∀ sc ∈ env.subs h, ReplicationOverview.parseHost sc.2 ∈ univ) →
      some seed ∈ univ →
      ReplicationOverview.discover_replication_topology env (univ.length + 1) seed
        = some st →
      (∀ p : ReplicationOverview.Node,
        ((alistGet? st.topo.links p).getD []).Nodup)
      ∧ (∀ p s : ReplicationOverview.Node,
          s ∈ (alistGet? st.topo.links p).getD [] →
          s ∈ st.visited ∧ ∃ sc ∈ env.subs s, ReplicationOverview.parseHost sc.2 = p) := by
  intro env univ seed st hclosed hseed hst
  obtain ⟨st2, heq, _, hinv2, _⟩ :=
    ReplicationOverview.dfsAux_spec env univ hclosed (univ.length + 1) (some seed) {}
      hseed (ReplicationOverview.Inv_init env univ) (by simp)
  rw [ReplicationOverview.discover_replication_topology, heq, Option.some_inj] at hst
  subst hst
  obtain ⟨_, hiff, hnd, hprov⟩ := hinv2.2.2
  refine ⟨hnd, ?_⟩
  intro p s hs
  exact hprov (p, s) ((hiff p s).mpr hs)

/-- Witness for C9 at `envW`: the discovered state's link dict satisfies
both conclusions. -/
theorem C9_witness :
    ((alistGet? stW.topo.links (some "A")).getD []).Nodup
    ∧ (some "B" ∈ (alistGet? stW.topo.links (some "A")).getD []
      ∧ some "B" ∈ stW.visited
      ∧ ∃ sc ∈ envW.subs (some "B"),
          ReplicationOverview.parseHost sc.2 = some "A") :=
  ⟨(C9_link_set_semantics envW univW "A" stW (by decide) (by decide) (by decide)).1
      (some "A"),
   by decide,
   ((C9_link_set_semantics envW univW "A" stW (by decide) (by decide) (by decide)).2
      (some "A") (some "B") (by decide)).1,
   ((C9_link_set_semantics envW univW "A" stW (by decide) (by decide) (by decide)).2
      (some "A") (some "B") (by decide)).2⟩

namespace RdsVariant

/-- State of the `dfs` in `reptool/rds_replication_overview.py`: it keeps
no `link_pairs` set. -/
structure VState where
  visited : List ReplicationOverview.Node := []
  topo : ReplicationOverview.Topology := {}
deriving DecidableEq, Repr

/-- The `dfs` of `reptool/rds_replication_overview.py` (lines 206-264),
fuel-indexed.  Unlike the `replication_overview.py` walk there is no
`link_pairs` guard — every subscription appends a link — and a host owning
slots re-reads its own `pg_subscription` rows and records the
reverse-direction links `host → parsed host` before recursing again. -/
def dfsAux (env : ReplicationOverview.DiscEnv) :
    Nat → ReplicationOverview.Node → VState → Option VState
  | 0, _, _ => none
  | fuel + 1, host, st =>
    if host ∈ st.visited then some st
    else
      let st1 := { st with visited := host :: st.visited }
      if env.fail host then some st1
      else
        let st2 := if env.subs host ≠ [] then
            { st1 with topo := { st1.topo with
                logical_subscribers := st1.topo.logical_subscribers ++ [host] } }
          else st1
        match (env.subs host).foldlM
            (fun st sc =>
              dfsAux env fuel (ReplicationOverview.parseHost sc.2)
                { st with topo := { st.topo with
                    links := alistPush st.topo.links
                      (ReplicationOverview.parseHost sc.2) host } })
            st2 with
        | none => none
        | some st3 =>
          if env.slots host ≠ [] then
            let st4 := { st3 with topo := { st3.topo with
                logical_publishers := st3.topo.logical_publishers ++ [host] } }
            (env.subs host).foldlM
              (fun st sc =>
                dfsAux env fuel (ReplicationOverview.parseHost sc.2)
                  { st with topo := { st.topo with
                      links := alistPush st.topo.links host
                        (ReplicationOverview.parseHost sc.2) } })
              st4
          else some st3

end RdsVariant

/-- The C9 counterexample environment: host H holds two subscriptions,
both pointing at publisher P; H owns no slots. -/
def envC9 : ReplicationOverview.DiscEnv :=
  { subs := fun h => if h = some "H" then
        [("s1", "host=P user=u"), ("s2", "host=P user=u")] else []
    slots := fun _ => []
    fail := fun _ => false }

/-- C9 counterexample: run on `envC9`, the
`reptool/rds_replication_overview.py` walk records the ordered pair
(P, H) twice — one link per subscription, with no set-semantics
collapse. -/
theorem C9_cex_duplicate_links :
    (RdsVariant.dfsAux envC9 5 (some "H") {}).map
        (fun st => (alistGet? st.topo.links (some "P")).getD [])
      = some [some "H", some "H"] := by decide
